/-
Verification of the AgentCoordProtocol contract
(src/contracts/AgentCoordProtocol.sol) against its specification.

Shallow embedding notes:
  * Solidity addresses and uint256 values are modelled as Nat.  The contract
    uses Solidity 0.8 checked arithmetic, whose only deviation from Nat is a
    revert at 2^256; no claim here concerns overflow, and every subtraction
    in the source is guarded by a require, so Nat is exact on the guarded
    domain.  reputationScore is int256, modelled as Int.
  * Solidity mappings are total functions with the zero record as default,
    exactly as EVM storage behaves; upd / upd2 are pointwise store writes.
  * A reverting require is an Except.error; an operation that reverts leaves
    the chain state unchanged, which applyOp models by keeping the old state.
  * External collaborators (MemeJob, the ERC-20 token, the schedule service,
    plain value sends) are modelled by environment parameters: the observed
    token-balance difference of the buy, a Bool for each transfer outcome.
    Outbound external calls are recorded in an ExtCall list; emitted events
    in an Event list.  tokenLedger models the external ERC-20 balances the
    claim transfer credits on success.
  * The execution environment authenticates callers, so msg.sender is never
    the zero address; reachability (opValid) records exactly that fact.
-/

import Mathlib

namespace AgentCoord

/-- Errors: one constructor per distinct require in the contract, named as the
specification names them. -/
inductive Err where
  | notOwner
  | reviewNotFound
  | alreadyExecuted
  | windowClosed
  | windowNotClosed
  | invalidAgent
  | invalidAmount
  | noDelegation
  | delegationExpired
  | zeroAmount
  | insufficientFee
  | invalidToken
  | tokenNotFound
  | scheduleFailed
  | noValidDelegation
  | duplicateThesis
  | mustPledgeIfBullish
  | exceedsLimit
  | insufficientEscrow
  | notExecuted
  | noShare
  | alreadyClaimed
  | transferFailed
  | notRegistered
  | alreadyRegistered
  | agentDidNotInvest
  deriving Repr, DecidableEq

/-- Events relevant to the claims (ReviewExecuted, AgentShareUpdated,
FeeDistributed, TokensClaimed). -/
inductive Event where
  | reviewExecuted (reviewId totalSpent tokensReceived : Nat)
  | agentShareUpdated (reviewId agent tokenShare : Nat)
  | feeDistributed (reviewId agent amount : Nat)
  | tokensClaimed (reviewId agent amount : Nat)
  deriving Repr, DecidableEq

/-- Outbound external calls made by the contract. -/
inductive ExtCall where
  | buyJob (memeJob token value : Nat)
  | sendValue (dest amount : Nat)
  | transferToken (token dest amount : Nat)
  deriving Repr, DecidableEq

/-- ERC-7710 delegation record (struct Delegation). -/
structure Delegation where
  delegator : Nat
  delegate : Nat
  maxAmount : Nat
  expiry : Nat
  signature : List Nat
  deriving Repr, DecidableEq

/-- ERC-8004 identity record (struct AgentIdentity). -/
structure AgentIdentity where
  agentAddress : Nat
  metadataURI : String
  registrationTime : Nat
  reputationScore : Int
  totalTrades : Nat
  profitableTrades : Nat
  deriving Repr, DecidableEq

/-- Thesis record (struct AgentThesis). -/
structure AgentThesis where
  agent : Nat
  thesis : String
  bullish : Bool
  pledgedAmount : Nat
  submittedAt : Nat
  deriving Repr, DecidableEq

/-- Review record (struct TokenReview).  The Solidity field named exists is
called exists_ because exists is a Lean keyword. -/
structure TokenReview where
  tokenAddress : Nat
  creator : Nat
  submissionFee : Nat
  deadline : Nat
  executed : Bool
  exists_ : Bool
  totalPledged : Nat
  totalPurchased : Nat
  scheduleAddress : Nat
  deriving Repr, DecidableEq

/-- Share record (struct AgentShare). -/
structure AgentShare where
  pledgedAmount : Nat
  tokenShare : Nat
  claimed : Bool
  deriving Repr, DecidableEq

/-- Pointwise store write on a mapping. -/
def upd {V : Type} (m : Nat → V) (k : Nat) (v : V) : Nat → V :=
  fun x => if x = k then v else m x

/-- Pointwise store write on a doubly indexed mapping. -/
def upd2 {V : Type} (m : Nat → Nat → V) (k1 k2 : Nat) (v : V) : Nat → Nat → V :=
  upd m k1 (upd (m k1) k2 v)

theorem upd_apply {V : Type} (m : Nat → V) (k : Nat) (v : V) (x : Nat) :
    upd m k v x = if x = k then v else m x := rfl

theorem upd_same {V : Type} (m : Nat → V) (k : Nat) (v : V) : upd m k v k = v := by
  simp [upd]

theorem upd_ne {V : Type} (m : Nat → V) (k : Nat) (v : V) (x : Nat) (h : x ≠ k) :
    upd m k v x = m x := by
  simp [upd, h]

theorem upd_upd_same {V : Type} (m : Nat → V) (k : Nat) (a b : V) :
    upd (upd m k a) k b = upd m k b := by
  funext x
  unfold upd
  by_cases h : x = k <;> simp [h]

theorem upd2_fst {V : Type} (m : Nat → Nat → V) (k1 k2 : Nat) (v : V) :
    upd2 m k1 k2 v k1 = upd (m k1) k2 v := upd_same _ _ _

theorem upd2_ne {V : Type} (m : Nat → Nat → V) (k1 k2 : Nat) (v : V) (x : Nat) (h : x ≠ k1) :
    upd2 m k1 k2 v x = m x := upd_ne _ _ _ _ h

/-- Zero value of a Delegation slot (what an unwritten or deleted slot holds). -/
def emptyDelegation : Delegation := ⟨0, 0, 0, 0, []⟩

/-- Zero value of an AgentIdentity slot. -/
def emptyIdentity : AgentIdentity := ⟨0, "", 0, 0, 0, 0⟩

/-- Zero value of an AgentThesis slot. -/
def emptyThesis : AgentThesis := ⟨0, "", false, 0, 0⟩

/-- Zero value of a TokenReview slot. -/
def emptyReview : TokenReview := ⟨0, 0, 0, 0, false, false, 0, 0, 0⟩

/-- Zero value of an AgentShare slot. -/
def emptyShare : AgentShare := ⟨0, 0, false⟩

/-- Full contract storage, immutables included, plus the external ERC-20
ledger the claim transfer credits. -/
@[ext]
structure State where
  owner : Nat
  memeJobAddress : Nat
  MIN_SUBMISSION_FEE : Nat
  REVIEW_WINDOW : Nat
  EXECUTION_GAS_LIMIT : Nat
  nextReviewId : Nat
  reviews : Nat → TokenReview
  theses : Nat → Nat → AgentThesis
  reviewAgents : Nat → List Nat
  agentShares : Nat → Nat → AgentShare
  delegations : Nat → Nat → Delegation
  agentIdentities : Nat → AgentIdentity
  agentEscrow : Nat → Nat
  tokenLedger : Nat → Nat → Nat

/-- Constructor: deployer becomes owner, all storage is zeroed. -/
def initState (deployer memeJob minFee reviewWindow gasLimit : Nat) : State where
  owner := deployer
  memeJobAddress := memeJob
  MIN_SUBMISSION_FEE := minFee
  REVIEW_WINDOW := reviewWindow
  EXECUTION_GAS_LIMIT := gasLimit
  nextReviewId := 0
  reviews := fun _ => emptyReview
  theses := fun _ _ => emptyThesis
  reviewAgents := fun _ => []
  agentShares := fun _ _ => emptyShare
  delegations := fun _ _ => emptyDelegation
  agentIdentities := fun _ => emptyIdentity
  agentEscrow := fun _ => 0
  tokenLedger := fun _ _ => 0

/-- registerDelegation (L268-286). -/
def registerDelegation (s : State) (sender agentAddress maxAmount expiry : Nat)
    (signature : List Nat) : Except Err State :=
  if agentAddress = 0 then Except.error Err.invalidAgent
  else if maxAmount = 0 then Except.error Err.invalidAmount
  else
    let d : Delegation := ⟨sender, agentAddress, maxAmount, expiry, signature⟩
    Except.ok { s with delegations := upd2 s.delegations sender agentAddress d }

/-- depositForAgent (L292-299).  The existence check is the source line
require(d.delegate == agentAddress). -/
def depositForAgent (s : State) (sender agentAddress value now : Nat) : Except Err State :=
  if (s.delegations sender agentAddress).delegate ≠ agentAddress then
    Except.error Err.noDelegation
  else if ¬ ((s.delegations sender agentAddress).expiry = 0
      ∨ now < (s.delegations sender agentAddress).expiry) then
    Except.error Err.delegationExpired
  else if value = 0 then Except.error Err.zeroAmount
  else
    let e := upd s.agentEscrow agentAddress (s.agentEscrow agentAddress + value)
    Except.ok { s with agentEscrow := e }

/-- revokeDelegation (L306-310): delete resets the slot to the zero record. -/
def revokeDelegation (s : State) (sender agentAddress : Nat) : Except Err State :=
  if (s.delegations sender agentAddress).delegate ≠ agentAddress then
    Except.error Err.noDelegation
  else
    let d2 := upd2 s.delegations sender agentAddress emptyDelegation
    Except.ok { s with delegations := d2 }

/-- registerAgent (L328-339). -/
def registerAgent (s : State) (sender : Nat) (metadataURI : String) (now : Nat) :
    Except Err State :=
  if (s.agentIdentities sender).agentAddress ≠ 0 then Except.error Err.alreadyRegistered
  else
    let m := upd s.agentIdentities sender ⟨sender, metadataURI, now, 0, 0, 0⟩
    Except.ok { s with agentIdentities := m }

/-- submitToken (L357-398).  tokenResolved models the MemeJob mapping lookup
returning a nonzero token address; schedOk and schedAddr model scheduleCall.
In the source the review record is written before scheduleCall runs, but a
failing scheduleCall reverts the whole call and discards that write, so the
schedOk test is placed before the write here; the observable outcomes are
identical. -/
def submitToken (s : State) (sender tokenAddress value now : Nat)
    (tokenResolved schedOk : Bool) (schedAddr : Nat) : Except Err State :=
  if value < s.MIN_SUBMISSION_FEE then Except.error Err.insufficientFee
  else if tokenAddress = 0 then Except.error Err.invalidToken
  else if tokenResolved = false then Except.error Err.tokenNotFound
  else if schedOk = false then Except.error Err.scheduleFailed
  else
    let reviewId := s.nextReviewId
    let deadline := now + s.REVIEW_WINDOW
    let rv : TokenReview := ⟨tokenAddress, sender, value, deadline, false, true, 0, 0, schedAddr⟩
    Except.ok { s with nextReviewId := reviewId + 1, reviews := upd s.reviews reviewId rv }

/-- submitThesis (L414-462), guards in source order. -/
def submitThesis (s : State) (sender reviewId : Nat) (thesis : String) (bullish : Bool)
    (pledgedAmount delegator now : Nat) : Except Err State :=
  if (s.reviews reviewId).exists_ = false then Except.error Err.reviewNotFound
  else if (s.reviews reviewId).executed = true then Except.error Err.alreadyExecuted
  else if ¬ now < (s.reviews reviewId).deadline then Except.error Err.windowClosed
  else if (s.delegations delegator sender).delegate ≠ sender then
    Except.error Err.noValidDelegation
  else if ¬ ((s.delegations delegator sender).expiry = 0
      ∨ now < (s.delegations delegator sender).expiry) then
    Except.error Err.delegationExpired
  else if (s.theses reviewId sender).agent ≠ 0 then Except.error Err.duplicateThesis
  else if bullish then
    if pledgedAmount = 0 then Except.error Err.mustPledgeIfBullish
    else if (s.delegations delegator sender).maxAmount < pledgedAmount then
      Except.error Err.exceedsLimit
    else if s.agentEscrow sender < pledgedAmount then Except.error Err.insufficientEscrow
    else
      let escrow2 := upd s.agentEscrow sender (s.agentEscrow sender - pledgedAmount)
      let rv := { s.reviews reviewId with totalPledged := (s.reviews reviewId).totalPledged + pledgedAmount }
      let reviews2 := upd s.reviews reviewId rv
      let shares2 := upd2 s.agentShares reviewId sender ⟨pledgedAmount, 0, false⟩
      let theses2 := upd2 s.theses reviewId sender ⟨sender, thesis, true, pledgedAmount, now⟩
      let agents2 := upd s.reviewAgents reviewId (s.reviewAgents reviewId ++ [sender])
      Except.ok { s with agentEscrow := escrow2, reviews := reviews2, agentShares := shares2, theses := theses2, reviewAgents := agents2 }
  else
    -- a bearish thesis forces pledgedAmount to 0 and touches no escrow
    let theses2 := upd2 s.theses reviewId sender ⟨sender, thesis, false, 0, now⟩
    let agents2 := upd s.reviewAgents reviewId (s.reviewAgents reviewId ++ [sender])
    Except.ok { s with theses := theses2, reviewAgents := agents2 }

/-- Index-dependent payout of the fee split (L644-649): every index but the
last gets perAgent, the last gets perAgent plus the remainder. -/
def feeAmounts (agentCount fee : Nat) : List Nat :=
  (List.range agentCount).map (fun i =>
    if i = agentCount - 1 then fee / agentCount + (fee - fee / agentCount * agentCount)
    else fee / agentCount)

/-- Payout list of the distribution loop, in submission order. -/
def feePayouts (agents : List Nat) (fee : Nat) : List (Nat × Nat) :=
  agents.zip (feeAmounts agents.length fee)

/-- distributeSubmissionFee (L638-659).  Each positive payout is one
attempted value send; a failed send is swallowed (no event, no abort) and
the loop continues, so the call list does not depend on sendOk. -/
def distributeSubmissionFee (s : State) (reviewId : Nat) (sendOk : Nat → Bool) :
    List Event × List ExtCall :=
  if (s.reviewAgents reviewId).length = 0 then ([], [])
  else
    ((feePayouts (s.reviewAgents reviewId) ((s.reviews reviewId).submissionFee)).filterMap
      (fun p =>
        if 0 < p.2 ∧ sendOk p.1 = true then
          some (Event.feeDistributed reviewId p.1 p.2) else none),
     (feePayouts (s.reviewAgents reviewId) ((s.reviews reviewId).submissionFee)).filterMap
      (fun p =>
        if 0 < p.2 then some (ExtCall.sendValue p.1 p.2) else none))

/-- Body of the allocation loop of executeReview (L511-520): for an agent
with a positive pledge when tokens were received, store the
floor-proportional token share.  pledgedAmount is never written. -/
def allocStep (totalPledged tokensReceived : Nat) (m : Nat → AgentShare) (a : Nat) :
    Nat → AgentShare :=
  if (m a).pledgedAmount ≠ 0 ∧ tokensReceived ≠ 0 then
    upd m a { m a with tokenShare := (m a).pledgedAmount * tokensReceived / totalPledged }
  else m

/-- Allocation loop of executeReview (L511-520), walking the agent list in
submission order. -/
def allocLoop (totalPledged tokensReceived : Nat) (shares : Nat → AgentShare)
    (agents : List Nat) : Nat → AgentShare :=
  agents.foldl (allocStep totalPledged tokensReceived) shares

/-- Storage write of L483: review.executed = true, done before any external
interaction. -/
def execMarkExecuted (s : State) (reviewId : Nat) : State :=
  { s with reviews := upd s.reviews reviewId { s.reviews reviewId with executed := true } }

/-- executeReview (L475-526).  tokensReceived is the balance difference the
contract measures around the buy.  The totalPledged read happens after the
executed flag is set in the source; the value is unchanged by that write, so
it is read from s here. -/
def executeReview (s : State) (reviewId now tokensReceived : Nat) (sendOk : Nat → Bool) :
    Except Err (State × List Event × List ExtCall) :=
  if (s.reviews reviewId).exists_ = false then Except.error Err.reviewNotFound
  else if (s.reviews reviewId).executed = true then Except.error Err.alreadyExecuted
  else if now < (s.reviews reviewId).deadline then Except.error Err.windowNotClosed
  else if (s.reviews reviewId).totalPledged = 0 then
    -- no purchase: set the flag, distribute the submission fee and return
    let s1 := execMarkExecuted s reviewId
    let fee := distributeSubmissionFee s1 reviewId sendOk
    Except.ok (s1, fee.1, fee.2)
  else
    let s1 := execMarkExecuted s reviewId
    let totalPledged := (s.reviews reviewId).totalPledged
    let buy := ExtCall.buyJob s1.memeJobAddress (s1.reviews reviewId).tokenAddress totalPledged
    let rv2 : TokenReview := { s1.reviews reviewId with totalPurchased := tokensReceived }
    let s2 : State := { s1 with reviews := upd s1.reviews reviewId rv2 }
    let agents : List Nat := s2.reviewAgents reviewId
    let shares3 := upd s2.agentShares reviewId (allocLoop totalPledged tokensReceived (s2.agentShares reviewId) agents)
    let s3 : State := { s2 with agentShares := shares3 }
    let shareEvents := agents.filterMap (fun (a : Nat) =>
      if (s2.agentShares reviewId a).pledgedAmount ≠ 0 ∧ tokensReceived ≠ 0 then
        some (Event.agentShareUpdated reviewId a
          ((s2.agentShares reviewId a).pledgedAmount * tokensReceived / totalPledged))
      else (none : Option Event))
    let fee := distributeSubmissionFee s3 reviewId sendOk
    Except.ok (s3,
      shareEvents ++ fee.1 ++ [Event.reviewExecuted reviewId totalPledged tokensReceived],
      buy :: fee.2)

/-- updateReputation (L541-561). -/
def updateReputation (s : State) (sender reviewId agent : Nat) (profitable : Bool) :
    Except Err State :=
  if sender ≠ s.owner then Except.error Err.notOwner
  else if (s.reviews reviewId).exists_ = false then Except.error Err.reviewNotFound
  else if (s.reviews reviewId).executed = false then Except.error Err.notExecuted
  else if (s.agentShares reviewId agent).pledgedAmount = 0 then
    Except.error Err.agentDidNotInvest
  else if (s.agentIdentities agent).agentAddress = 0 then Except.error Err.notRegistered
  else
    let idy := s.agentIdentities agent
    let score := if profitable then idy.reputationScore + 1 else idy.reputationScore - 1
    let wins := if profitable then idy.profitableTrades + 1 else idy.profitableTrades
    let idy2 := { idy with totalTrades := idy.totalTrades + 1, reputationScore := score, profitableTrades := wins }
    Except.ok { s with agentIdentities := upd s.agentIdentities agent idy2 }

/-- Storage write of L580: share.claimed = true, done before the external
token transfer. -/
def claimMark (s : State) (reviewId sender : Nat) : State :=
  let sh := { s.agentShares reviewId sender with claimed := true }
  { s with agentShares := upd2 s.agentShares reviewId sender sh }

/-- claimTokens (L571-585).  transferOk models the Bool the external ERC-20
transfer returns; a false return fails the require and reverts everything,
including the claimed flag the source sets just before the transfer, so the
transferOk test is placed before that write here with identical observable
outcomes (claimMark is the intermediate state of L580, used to state the
reentrancy property).  On success the external ledger credits the caller
with the share. -/
def claimTokens (s : State) (sender reviewId : Nat) (transferOk : Bool) :
    Except Err (State × List Event) :=
  if (s.reviews reviewId).exists_ = false then Except.error Err.reviewNotFound
  else if (s.reviews reviewId).executed = false then Except.error Err.notExecuted
  else if (s.agentShares reviewId sender).tokenShare = 0 then Except.error Err.noShare
  else if (s.agentShares reviewId sender).claimed = true then Except.error Err.alreadyClaimed
  else if transferOk = false then Except.error Err.transferFailed
  else
    let amount := (s.agentShares reviewId sender).tokenShare
    let token := (s.reviews reviewId).tokenAddress
    let s1 := claimMark s reviewId sender
    let ledger2 := upd2 s1.tokenLedger token sender (s1.tokenLedger token sender + amount)
    Except.ok ({ s1 with tokenLedger := ledger2 }, [Event.tokensClaimed reviewId sender amount])

/-- setMemeJobAddress (L250-253). -/
def setMemeJobAddress (s : State) (sender addr : Nat) : Except Err State :=
  if sender ≠ s.owner then Except.error Err.notOwner
  else Except.ok { s with memeJobAddress := addr }

/-- One external transaction against the contract, with its environment
inputs (timestamps, external-call outcomes) inlined. -/
inductive Op where
  | registerDelegation (sender agentAddress maxAmount expiry : Nat) (signature : List Nat)
  | depositForAgent (sender agentAddress value now : Nat)
  | revokeDelegation (sender agentAddress : Nat)
  | registerAgent (sender : Nat) (metadataURI : String) (now : Nat)
  | submitToken (sender tokenAddress value now : Nat) (tokenResolved schedOk : Bool)
      (schedAddr : Nat)
  | submitThesis (sender reviewId : Nat) (thesis : String) (bullish : Bool)
      (pledgedAmount delegator now : Nat)
  | executeReview (reviewId now tokensReceived : Nat) (sendOk : Nat → Bool)
  | updateReputation (sender reviewId agent : Nat) (profitable : Bool)
  | claimTokens (sender reviewId : Nat) (transferOk : Bool)
  | setMemeJobAddress (sender addr : Nat)

/-- Chain semantics of one transaction: a revert leaves the state unchanged. -/
def applyOp (op : Op) (s : State) : State :=
  match op with
  | Op.registerDelegation sender agent maxAmount expiry sig =>
      match registerDelegation s sender agent maxAmount expiry sig with
      | Except.ok s1 => s1 | Except.error _ => s
  | Op.depositForAgent sender agent value now =>
      match depositForAgent s sender agent value now with
      | Except.ok s1 => s1 | Except.error _ => s
  | Op.revokeDelegation sender agent =>
      match revokeDelegation s sender agent with
      | Except.ok s1 => s1 | Except.error _ => s
  | Op.registerAgent sender uri now =>
      match registerAgent s sender uri now with
      | Except.ok s1 => s1 | Except.error _ => s
  | Op.submitToken sender token value now resolved schedOk schedAddr =>
      match submitToken s sender token value now resolved schedOk schedAddr with
      | Except.ok s1 => s1 | Except.error _ => s
  | Op.submitThesis sender reviewId thesis bullish pledged delegator now =>
      match submitThesis s sender reviewId thesis bullish pledged delegator now with
      | Except.ok s1 => s1 | Except.error _ => s
  | Op.executeReview reviewId now tokensReceived sendOk =>
      match executeReview s reviewId now tokensReceived sendOk with
      | Except.ok r => r.1 | Except.error _ => s
  | Op.updateReputation sender reviewId agent profitable =>
      match updateReputation s sender reviewId agent profitable with
      | Except.ok s1 => s1 | Except.error _ => s
  | Op.claimTokens sender reviewId transferOk =>
      match claimTokens s sender reviewId transferOk with
      | Except.ok r => r.1 | Except.error _ => s
  | Op.setMemeJobAddress sender addr =>
      match setMemeJobAddress s sender addr with
      | Except.ok s1 => s1 | Except.error _ => s

/-- The EVM guarantee that msg.sender is an authenticated, nonzero address. -/
def opValid : Op → Prop
  | Op.registerDelegation sender _ _ _ _ => sender ≠ 0
  | Op.depositForAgent sender _ _ _ => sender ≠ 0
  | Op.revokeDelegation sender _ => sender ≠ 0
  | Op.registerAgent sender _ _ => sender ≠ 0
  | Op.submitToken sender _ _ _ _ _ _ => sender ≠ 0
  | Op.submitThesis sender _ _ _ _ _ _ => sender ≠ 0
  | Op.executeReview _ _ _ _ => True
  | Op.updateReputation sender _ _ _ => sender ≠ 0
  | Op.claimTokens sender _ _ => sender ≠ 0
  | Op.setMemeJobAddress sender _ => sender ≠ 0

/-- States reachable from deployment through any sequence of transactions. -/
inductive Reachable : State → Prop where
  | init (deployer memeJob minFee reviewWindow gasLimit : Nat) :
      Reachable (initState deployer memeJob minFee reviewWindow gasLimit)
  | step {s : State} (op : Op) (h : Reachable s) (hv : opValid op) :
      Reachable (applyOp op s)

/-- Boolean success test for an Except result. -/
def okB {α : Type} : Except Err α → Bool
  | Except.ok _ => true
  | Except.error _ => false

/-! Arithmetic of the fee split (section 4.4 of the specification). -/

theorem feeAmounts_length (n fee : Nat) : (feeAmounts n fee).length = n := by
  simp [feeAmounts]

theorem feeAmounts_eq (n fee : Nat) (h : n ≠ 0) :
    feeAmounts n fee
      = List.replicate (n - 1) (fee / n) ++ [fee / n + (fee - fee / n * n)] := by
  obtain ⟨m, rfl⟩ : ∃ m, n = m + 1 := ⟨n - 1, by omega⟩
  unfold feeAmounts
  rw [show m + 1 = Nat.succ m from rfl, List.range_succ, List.map_append]
  have hrep : ((List.range m).map (fun i =>
      if i = Nat.succ m - 1 then fee / Nat.succ m + (fee - fee / Nat.succ m * Nat.succ m)
      else fee / Nat.succ m))
      = List.replicate m (fee / Nat.succ m) := by
    have hmem : ∀ x ∈ (List.range m).map (fun i =>
        if i = Nat.succ m - 1 then fee / Nat.succ m + (fee - fee / Nat.succ m * Nat.succ m)
        else fee / Nat.succ m), x = fee / Nat.succ m := by
      intro x hx
      rcases List.mem_map.mp hx with ⟨i, hi, rfl⟩
      have : i < m := List.mem_range.mp hi
      have hne : i ≠ m := by omega
      simp [Nat.succ_sub_one, hne]
    calc (List.range m).map (fun i =>
          if i = Nat.succ m - 1 then fee / Nat.succ m + (fee - fee / Nat.succ m * Nat.succ m)
          else fee / Nat.succ m)
        = List.replicate ((List.range m).map (fun i =>
            if i = Nat.succ m - 1 then fee / Nat.succ m + (fee - fee / Nat.succ m * Nat.succ m)
            else fee / Nat.succ m)).length (fee / Nat.succ m) :=
          List.eq_replicate_length.mpr hmem
      _ = List.replicate m (fee / Nat.succ m) := by simp
  rw [hrep]
  simp

theorem feeAmounts_sum (n fee : Nat) (h : n ≠ 0) : (feeAmounts n fee).sum = fee := by
  rw [feeAmounts_eq n fee h, List.sum_append, List.sum_const_nat]
  have h1 : fee / n * n ≤ fee := Nat.div_mul_le_self fee n
  have h2 : (n - 1) * (fee / n) + fee / n = fee / n * n := by
    obtain ⟨m, rfl⟩ : ∃ m, n = m + 1 := ⟨n - 1, by omega⟩
    have : m + 1 - 1 = m := by omega
    rw [this]
    ring
  have h3 : ([fee / n + (fee - fee / n * n)] : List Nat).sum = fee / n + (fee - fee / n * n) := by
    simp
  rw [h3]
  omega

/-! Arithmetic of the proportional token-share allocation: the exact sum
identity, the upper bound, the equality characterisation and the deficit
bound, all over an arbitrary pledge list. -/

theorem sum_div_key (P T : Nat) (xs : List Nat) :
    P * (xs.map (fun x => x * T / P)).sum + (xs.map (fun x => x * T % P)).sum
      = xs.sum * T := by
  induction xs with
  | nil => simp
  | cons x xs ih =>
    simp only [List.map_cons, List.sum_cons]
    have hdm : P * (x * T / P) + x * T % P = x * T := Nat.div_add_mod (x * T) P
    calc P * (x * T / P + (xs.map (fun x => x * T / P)).sum)
          + (x * T % P + (xs.map (fun x => x * T % P)).sum)
        = (P * (x * T / P) + x * T % P)
          + (P * (xs.map (fun x => x * T / P)).sum + (xs.map (fun x => x * T % P)).sum) := by
          ring
      _ = x * T + xs.sum * T := by rw [hdm, ih]
      _ = (x + xs.sum) * T := by ring

theorem sum_mod_le (P T : Nat) (hP : P ≠ 0) (xs : List Nat) :
    (xs.map (fun x => x * T % P)).sum ≤ xs.length * P := by
  induction xs with
  | nil => simp
  | cons x xs ih =>
    simp only [List.map_cons, List.sum_cons, List.length_cons]
    have h1 : x * T % P < P := Nat.mod_lt _ (Nat.pos_of_ne_zero hP)
    have h2 : (xs.length + 1) * P = xs.length * P + P := by ring
    omega

theorem sum_mod_lt (P T : Nat) (hP : P ≠ 0) (xs : List Nat) (hne : xs ≠ []) :
    (xs.map (fun x => x * T % P)).sum < xs.length * P := by
  cases xs with
  | nil => exact absurd rfl hne
  | cons x xs =>
    simp only [List.map_cons, List.sum_cons, List.length_cons]
    have h1 : x * T % P < P := Nat.mod_lt _ (Nat.pos_of_ne_zero hP)
    have h2 := sum_mod_le P T hP xs
    have h3 : (xs.length + 1) * P = xs.length * P + P := by ring
    omega

theorem shareSum_spec (P T : Nat) (hP : P ≠ 0) (xs : List Nat) (hsum : xs.sum = P) :
    (xs.map (fun x => x * T / P)).sum ≤ T
    ∧ ((xs.map (fun x => x * T / P)).sum = T ↔ ∀ x ∈ xs, P ∣ x * T)
    ∧ T - (xs.map (fun x => x * T / P)).sum < xs.length := by
  have key := sum_div_key P T xs
  rw [hsum] at key
  have hne : xs ≠ [] := by
    intro h
    rw [h] at hsum
    exact hP hsum.symm
  have hmod := sum_mod_lt P T hP xs hne
  have hle : (xs.map (fun x => x * T / P)).sum ≤ T := by
    have h1 : P * (xs.map (fun x => x * T / P)).sum ≤ P * T := by omega
    exact Nat.le_of_mul_le_mul_left h1 (Nat.pos_of_ne_zero hP)
  refine ⟨hle, ?_, ?_⟩
  · constructor
    · intro hEq
      have hzero : (xs.map (fun x => x * T % P)).sum = 0 := by
        rw [hEq] at key
        omega
      intro x hx
      have := List.sum_eq_zero_iff.mp hzero (x * T % P)
        (List.mem_map.mpr ⟨x, hx, rfl⟩)
      exact Nat.dvd_iff_mod_eq_zero.mpr this
    · intro hdvd
      have hzero : (xs.map (fun x => x * T % P)).sum = 0 := by
        apply List.sum_eq_zero_iff.mpr
        intro y hy
        rcases List.mem_map.mp hy with ⟨x, hx, rfl⟩
        exact Nat.dvd_iff_mod_eq_zero.mp (hdvd x hx)
      rw [hzero] at key
      have : P * (xs.map (fun x => x * T / P)).sum = P * T := by omega
      exact Nat.eq_of_mul_eq_mul_left (Nat.pos_of_ne_zero hP) this
  · have h1 : P * T < P * ((xs.map (fun x => x * T / P)).sum + xs.length) := by
      have h2 : P * ((xs.map (fun x => x * T / P)).sum + xs.length)
          = P * (xs.map (fun x => x * T / P)).sum + xs.length * P := by ring
      omega
    have h3 := Nat.lt_of_mul_lt_mul_left h1
    omega

/-! Behaviour of the allocation loop. -/

theorem allocStep_pledged (P T : Nat) (m : Nat → AgentShare) (a x : Nat) :
    ((allocStep P T m a) x).pledgedAmount = (m x).pledgedAmount := by
  unfold allocStep
  split
  · by_cases hx : x = a
    · subst hx
      rw [upd_same]
    · rw [upd_ne _ _ _ _ hx]
  · rfl

theorem allocStep_ne (P T : Nat) (m : Nat → AgentShare) (a x : Nat) (h : x ≠ a) :
    (allocStep P T m a) x = m x := by
  unfold allocStep
  split
  · rw [upd_ne _ _ _ _ h]
  · rfl

theorem allocLoop_pledged (P T : Nat) (l : List Nat) (m : Nat → AgentShare) (x : Nat) :
    ((allocLoop P T m l) x).pledgedAmount = (m x).pledgedAmount := by
  induction l generalizing m with
  | nil => rfl
  | cons b l ih =>
    have : allocLoop P T m (b :: l) = allocLoop P T (allocStep P T m b) l := rfl
    rw [this, ih (allocStep P T m b), allocStep_pledged]

theorem allocLoop_not_mem (P T : Nat) (l : List Nat) (m : Nat → AgentShare) (x : Nat)
    (h : x ∉ l) : (allocLoop P T m l) x = m x := by
  induction l generalizing m with
  | nil => rfl
  | cons b l ih =>
    have hx : x ∉ l := fun hc => h (List.mem_cons_of_mem b hc)
    have hb : x ≠ b := fun hc => h (hc ▸ List.mem_cons_self b l)
    have : allocLoop P T m (b :: l) = allocLoop P T (allocStep P T m b) l := rfl
    rw [this, ih (allocStep P T m b) hx, allocStep_ne _ _ _ _ _ hb]

theorem allocLoop_tokenShare (P T : Nat) (l : List Nat) (m : Nat → AgentShare) (a : Nat)
    (ha : a ∈ l) :
    ((allocLoop P T m l) a).tokenShare
      = if (m a).pledgedAmount ≠ 0 ∧ T ≠ 0 then (m a).pledgedAmount * T / P
        else (m a).tokenShare := by
  induction l generalizing m with
  | nil => exact absurd ha (List.not_mem_nil a)
  | cons b l ih =>
    have hfold : allocLoop P T m (b :: l) = allocLoop P T (allocStep P T m b) l := rfl
    by_cases hab : a = b
    · subst hab
      by_cases hc : (m a).pledgedAmount ≠ 0 ∧ T ≠ 0
      · have hstep : allocStep P T m a
            = upd m a { m a with tokenShare := (m a).pledgedAmount * T / P } := by
          unfold allocStep
          rw [if_pos hc]
        by_cases hal : a ∈ l
        · rw [hfold, ih _ hal, hstep, upd_same]
          simp [hc]
        · rw [hfold, allocLoop_not_mem _ _ _ _ _ hal, hstep, upd_same]
          simp [hc]
      · have hstep : allocStep P T m a = m := by
          unfold allocStep
          rw [if_neg hc]
        by_cases hal : a ∈ l
        · rw [hfold, hstep, ih _ hal]
        · rw [hfold, hstep, allocLoop_not_mem _ _ _ _ _ hal, if_neg hc]
    · have hal : a ∈ l := by
        rcases List.mem_cons.mp ha with h | h
        · exact absurd h hab
        · exact h
      rw [hfold, ih _ hal, allocStep_ne _ _ _ _ _ hab]

/-! Behaviour of the fee-distribution loop. -/

theorem dist_calls_indep (s : State) (reviewId : Nat) (f g : Nat → Bool) :
    (distributeSubmissionFee s reviewId f).2 = (distributeSubmissionFee s reviewId g).2 := by
  unfold distributeSubmissionFee
  by_cases h : (s.reviewAgents reviewId).length = 0
  · rw [if_pos h, if_pos h]
  · rw [if_neg h, if_neg h]

theorem dist_empty (s : State) (reviewId : Nat) (sendOk : Nat → Bool)
    (h : s.reviewAgents reviewId = []) :
    distributeSubmissionFee s reviewId sendOk = ([], []) := by
  unfold distributeSubmissionFee
  rw [h]
  rfl

theorem dist_calls_mem (s : State) (reviewId : Nat) (sendOk : Nat → Bool) (a amt : Nat)
    (hmem : (a, amt) ∈ feePayouts (s.reviewAgents reviewId) ((s.reviews reviewId).submissionFee))
    (hpos : 0 < amt) :
    ExtCall.sendValue a amt ∈ (distributeSubmissionFee s reviewId sendOk).2 := by
  unfold distributeSubmissionFee
  by_cases hlen : (s.reviewAgents reviewId).length = 0
  · have : s.reviewAgents reviewId = [] := List.length_eq_zero.mp hlen
    rw [this] at hmem
    simp [feePayouts] at hmem
  · rw [if_neg hlen]
    exact List.mem_filterMap.mpr ⟨(a, amt), hmem, by simp [hpos]⟩

theorem dist_events_mem (s : State) (reviewId : Nat) (sendOk : Nat → Bool) (a amt : Nat)
    (hmem : (a, amt) ∈ feePayouts (s.reviewAgents reviewId) ((s.reviews reviewId).submissionFee))
    (hpos : 0 < amt) (hok : sendOk a = true) :
    Event.feeDistributed reviewId a amt ∈ (distributeSubmissionFee s reviewId sendOk).1 := by
  unfold distributeSubmissionFee
  by_cases hlen : (s.reviewAgents reviewId).length = 0
  · have : s.reviewAgents reviewId = [] := List.length_eq_zero.mp hlen
    rw [this] at hmem
    simp [feePayouts] at hmem
  · rw [if_neg hlen]
    exact List.mem_filterMap.mpr ⟨(a, amt), hmem, by simp [hpos, hok]⟩

theorem dist_calls_shape (s : State) (reviewId : Nat) (sendOk : Nat → Bool) (x : ExtCall)
    (hx : x ∈ (distributeSubmissionFee s reviewId sendOk).2) :
    ∃ a amt, x = ExtCall.sendValue a amt := by
  unfold distributeSubmissionFee at hx
  by_cases hlen : (s.reviewAgents reviewId).length = 0
  · rw [if_pos hlen] at hx
    simp at hx
  · rw [if_neg hlen] at hx
    rcases List.mem_filterMap.mp hx with ⟨p, _, hp⟩
    by_cases h : 0 < p.2
    · rw [if_pos h] at hp
      exact ⟨p.1, p.2, (Option.some.inj hp).symm⟩
    · rw [if_neg h] at hp
      cases hp

/-! Inductive invariant of the contract storage, preserved by every
transaction, and thus true in every reachable state. -/

/-- Inductive invariant: thesis membership matches the per-review agent
list, only ids below the counter exist, token shares are zero before
execution, shares without a thesis carry no pledge, and the pledged amounts
recorded in shares sum to totalPledged. -/
structure Inv (s : State) : Prop where
  mem_thesis : ∀ reviewId a, a ∈ s.reviewAgents reviewId →
    (s.theses reviewId a).agent = a ∧ a ≠ 0
  fresh_empty : ∀ reviewId, s.nextReviewId ≤ reviewId → s.reviewAgents reviewId = []
  exists_lt : ∀ reviewId, (s.reviews reviewId).exists_ = true → reviewId < s.nextReviewId
  executed_exists : ∀ reviewId, (s.reviews reviewId).executed = true →
    (s.reviews reviewId).exists_ = true
  token_zero : ∀ reviewId a, (s.reviews reviewId).executed = false →
    (s.agentShares reviewId a).tokenShare = 0
  no_thesis_no_pledge : ∀ reviewId a, (s.theses reviewId a).agent = 0 →
    (s.agentShares reviewId a).pledgedAmount = 0
  pledged_sum : ∀ reviewId,
    ((s.reviewAgents reviewId).map
        (fun a => (s.agentShares reviewId a).pledgedAmount)).sum
      = (s.reviews reviewId).totalPledged

theorem inv_init (d m f w g : Nat) : Inv (initState d m f w g) :=
  ⟨fun _ a ha => absurd ha (List.not_mem_nil a),
   fun _ _ => rfl,
   fun _ h => by simp [initState, emptyReview] at h,
   fun _ h => by simp [initState, emptyReview] at h,
   fun _ _ _ => rfl,
   fun _ _ _ => rfl,
   fun _ => rfl⟩

theorem inv_of_fields (s s1 : State)
    (hra : s1.reviewAgents = s.reviewAgents)
    (hrv : s1.reviews = s.reviews)
    (hth : s1.theses = s.theses)
    (hsh : s1.agentShares = s.agentShares)
    (hnx : s1.nextReviewId = s.nextReviewId)
    (h : Inv s) : Inv s1 := by
  refine ⟨?_, ?_, ?_, ?_, ?_, ?_, ?_⟩
  · intro id a ha
    rw [hra] at ha
    rw [hth]
    exact h.mem_thesis id a ha
  · intro id hid
    rw [hnx] at hid
    rw [hra]
    exact h.fresh_empty id hid
  · intro id hid
    rw [hrv] at hid
    rw [hnx]
    exact h.exists_lt id hid
  · intro id hid
    rw [hrv] at hid ⊢
    exact h.executed_exists id hid
  · intro id a hid
    rw [hrv] at hid
    rw [hsh]
    exact h.token_zero id a hid
  · intro id a hid
    rw [hth] at hid
    rw [hsh]
    exact h.no_thesis_no_pledge id a hid
  · intro id
    rw [hra, hsh, hrv]
    exact h.pledged_sum id

theorem inv_registerDelegation (s : State) (p a m e : Nat) (sig : List Nat) (h : Inv s) :
    Inv (applyOp (Op.registerDelegation p a m e sig) s) := by
  simp only [applyOp, registerDelegation]
  by_cases h1 : a = 0
  · rw [if_pos h1]
    exact h
  rw [if_neg h1]
  by_cases h2 : m = 0
  · rw [if_pos h2]
    exact h
  rw [if_neg h2]
  exact inv_of_fields s _ rfl rfl rfl rfl rfl h

theorem inv_depositForAgent (s : State) (p a v now : Nat) (h : Inv s) :
    Inv (applyOp (Op.depositForAgent p a v now) s) := by
  simp only [applyOp, depositForAgent]
  by_cases h1 : (s.delegations p a).delegate ≠ a
  · rw [if_pos h1]
    exact h
  rw [if_neg h1]
  by_cases h2 : ¬ ((s.delegations p a).expiry = 0 ∨ now < (s.delegations p a).expiry)
  · rw [if_pos h2]
    exact h
  rw [if_neg h2]
  by_cases h3 : v = 0
  · rw [if_pos h3]
    exact h
  rw [if_neg h3]
  exact inv_of_fields s _ rfl rfl rfl rfl rfl h

theorem inv_revokeDelegation (s : State) (p a : Nat) (h : Inv s) :
    Inv (applyOp (Op.revokeDelegation p a) s) := by
  simp only [applyOp, revokeDelegation]
  by_cases h1 : (s.delegations p a).delegate ≠ a
  · rw [if_pos h1]
    exact h
  rw [if_neg h1]
  exact inv_of_fields s _ rfl rfl rfl rfl rfl h

theorem inv_registerAgent (s : State) (p : Nat) (uri : String) (now : Nat) (h : Inv s) :
    Inv (applyOp (Op.registerAgent p uri now) s) := by
  simp only [applyOp, registerAgent]
  by_cases h1 : (s.agentIdentities p).agentAddress ≠ 0
  · rw [if_pos h1]
    exact h
  rw [if_neg h1]
  exact inv_of_fields s _ rfl rfl rfl rfl rfl h

theorem inv_updateReputation (s : State) (p reviewId agent : Nat) (profitable : Bool)
    (h : Inv s) : Inv (applyOp (Op.updateReputation p reviewId agent profitable) s) := by
  simp only [applyOp, updateReputation]
  by_cases h1 : p ≠ s.owner
  · rw [if_pos h1]
    exact h
  rw [if_neg h1]
  by_cases h2 : (s.reviews reviewId).exists_ = false
  · rw [if_pos h2]
    exact h
  rw [if_neg h2]
  by_cases h3 : (s.reviews reviewId).executed = false
  · rw [if_pos h3]
    exact h
  rw [if_neg h3]
  by_cases h4 : (s.agentShares reviewId agent).pledgedAmount = 0
  · rw [if_pos h4]
    exact h
  rw [if_neg h4]
  by_cases h5 : (s.agentIdentities agent).agentAddress = 0
  · rw [if_pos h5]
    exact h
  rw [if_neg h5]
  exact inv_of_fields s _ rfl rfl rfl rfl rfl h

theorem inv_setMemeJobAddress (s : State) (p addr : Nat) (h : Inv s) :
    Inv (applyOp (Op.setMemeJobAddress p addr) s) := by
  simp only [applyOp, setMemeJobAddress]
  by_cases h1 : p ≠ s.owner
  · rw [if_pos h1]
    exact h
  rw [if_neg h1]
  exact inv_of_fields s _ rfl rfl rfl rfl rfl h

theorem inv_submitToken (s : State) (sender token value now : Nat) (resolved schedOk : Bool)
    (schedAddr : Nat) (h : Inv s) :
    Inv (applyOp (Op.submitToken sender token value now resolved schedOk schedAddr) s) := by
  simp only [applyOp, submitToken]
  by_cases h1 : value < s.MIN_SUBMISSION_FEE
  · rw [if_pos h1]
    exact h
  rw [if_neg h1]
  by_cases h2 : token = 0
  · rw [if_pos h2]
    exact h
  rw [if_neg h2]
  by_cases h3 : resolved = false
  · rw [if_pos h3]
    exact h
  rw [if_neg h3]
  by_cases h4 : schedOk = false
  · rw [if_pos h4]
    exact h
  rw [if_neg h4]
  refine ⟨?_, ?_, ?_, ?_, ?_, ?_, ?_⟩
  · intro id a ha
    exact h.mem_thesis id a ha
  · intro id hid
    have hid2 : s.nextReviewId + 1 ≤ id := hid
    exact h.fresh_empty id (by omega)
  · intro id hid
    have hid2 : (upd s.reviews s.nextReviewId
        ⟨token, sender, value, now + s.REVIEW_WINDOW, false, true, 0, 0, schedAddr⟩ id).exists_
          = true := hid
    show id < s.nextReviewId + 1
    by_cases hn : id = s.nextReviewId
    · omega
    · rw [upd_ne _ _ _ _ hn] at hid2
      have := h.exists_lt id hid2
      omega
  · intro id hid
    have hid2 : (upd s.reviews s.nextReviewId
        ⟨token, sender, value, now + s.REVIEW_WINDOW, false, true, 0, 0, schedAddr⟩ id).executed
          = true := hid
    show (upd s.reviews s.nextReviewId
        ⟨token, sender, value, now + s.REVIEW_WINDOW, false, true, 0, 0, schedAddr⟩ id).exists_
          = true
    by_cases hn : id = s.nextReviewId
    · rw [hn, upd_same]
    · rw [upd_ne _ _ _ _ hn] at hid2 ⊢
      exact h.executed_exists id hid2
  · intro id a hid
    have hid2 : (upd s.reviews s.nextReviewId
        ⟨token, sender, value, now + s.REVIEW_WINDOW, false, true, 0, 0, schedAddr⟩ id).executed
          = false := hid
    show (s.agentShares id a).tokenShare = 0
    by_cases hn : id = s.nextReviewId
    · rcases Bool.eq_false_or_eq_true ((s.reviews id).executed) with hb | hb
      · exfalso
        have hexi := h.executed_exists id hb
        have := h.exists_lt id hexi
        omega
      · exact h.token_zero id a hb
    · rw [upd_ne _ _ _ _ hn] at hid2
      exact h.token_zero id a hid2
  · intro id a hid
    exact h.no_thesis_no_pledge id a hid
  · intro id
    show ((s.reviewAgents id).map (fun a => (s.agentShares id a).pledgedAmount)).sum
      = (upd s.reviews s.nextReviewId
          ⟨token, sender, value, now + s.REVIEW_WINDOW, false, true, 0, 0, schedAddr⟩ id).totalPledged
    by_cases hn : id = s.nextReviewId
    · rw [hn, upd_same, h.fresh_empty s.nextReviewId le_rfl]
      rfl
    · rw [upd_ne _ _ _ _ hn]
      exact h.pledged_sum id

theorem inv_submitThesis (s : State) (sender reviewId : Nat) (thesis : String) (bullish : Bool)
    (pledgedAmount delegator now : Nat) (h : Inv s) (hv : sender ≠ 0) :
    Inv (applyOp (Op.submitThesis sender reviewId thesis bullish pledgedAmount delegator now) s) := by
  simp only [applyOp, submitThesis]
  by_cases h1 : (s.reviews reviewId).exists_ = false
  · rw [if_pos h1]
    exact h
  rw [if_neg h1]
  by_cases h2 : (s.reviews reviewId).executed = true
  · rw [if_pos h2]
    exact h
  rw [if_neg h2]
  by_cases h3 : ¬ now < (s.reviews reviewId).deadline
  · rw [if_pos h3]
    exact h
  rw [if_neg h3]
  by_cases h4 : (s.delegations delegator sender).delegate ≠ sender
  · rw [if_pos h4]
    exact h
  rw [if_neg h4]
  by_cases h5 : ¬ ((s.delegations delegator sender).expiry = 0
      ∨ now < (s.delegations delegator sender).expiry)
  · rw [if_pos h5]
    exact h
  rw [if_neg h5]
  by_cases h6 : (s.theses reviewId sender).agent ≠ 0
  · rw [if_pos h6]
    exact h
  rw [if_neg h6]
  have h6z : (s.theses reviewId sender).agent = 0 := not_not.mp h6
  have hex : (s.reviews reviewId).exists_ = true := by
    cases hb : (s.reviews reviewId).exists_
    · exact absurd hb h1
    · rfl
  have hexecF : (s.reviews reviewId).executed = false := by
    cases hb : (s.reviews reviewId).executed
    · rfl
    · exact absurd hb h2
  have hlt : reviewId < s.nextReviewId := h.exists_lt reviewId hex
  have hnotmem : sender ∉ s.reviewAgents reviewId := by
    intro hmem
    exact hv (((h.mem_thesis reviewId sender hmem).1).symm.trans h6z)
  by_cases hb : bullish = true
  · rw [if_pos hb]
    by_cases h7 : pledgedAmount = 0
    · rw [if_pos h7]
      exact h
    rw [if_neg h7]
    by_cases h8 : (s.delegations delegator sender).maxAmount < pledgedAmount
    · rw [if_pos h8]
      exact h
    rw [if_neg h8]
    by_cases h9 : s.agentEscrow sender < pledgedAmount
    · rw [if_pos h9]
      exact h
    rw [if_neg h9]
    refine ⟨?_, ?_, ?_, ?_, ?_, ?_, ?_⟩
    · intro id a ha
      have ha2 : a ∈ upd s.reviewAgents reviewId (s.reviewAgents reviewId ++ [sender]) id := ha
      show ((upd2 s.theses reviewId sender ⟨sender, thesis, true, pledgedAmount, now⟩ id a).agent
          = a ∧ a ≠ 0)
      by_cases hn : id = reviewId
      · rw [hn] at ha2 ⊢
        rw [upd_same] at ha2
        rcases List.mem_append.mp ha2 with haold | hanew
        · have hasne : a ≠ sender := fun hc => hnotmem (hc ▸ haold)
          rw [upd2_fst, upd_ne _ _ _ _ hasne]
          exact h.mem_thesis reviewId a haold
        · have : a = sender := List.mem_singleton.mp hanew
          rw [this, upd2_fst, upd_same]
          exact ⟨rfl, hv⟩
      · rw [upd_ne _ _ _ _ hn] at ha2
        rw [upd2_ne _ _ _ _ _ hn]
        exact h.mem_thesis id a ha2
    · intro id hid
      have hid2 : s.nextReviewId ≤ id := hid
      have hn : id ≠ reviewId := by omega
      show upd s.reviewAgents reviewId (s.reviewAgents reviewId ++ [sender]) id = []
      rw [upd_ne _ _ _ _ hn]
      exact h.fresh_empty id hid2
    · intro id hid
      have hid2 : (upd s.reviews reviewId
          { s.reviews reviewId with
              totalPledged := (s.reviews reviewId).totalPledged + pledgedAmount } id).exists_
            = true := hid
      show id < s.nextReviewId
      by_cases hn : id = reviewId
      · omega
      · rw [upd_ne _ _ _ _ hn] at hid2
        exact h.exists_lt id hid2
    · intro id hid
      have hid2 : (upd s.reviews reviewId
          { s.reviews reviewId with
              totalPledged := (s.reviews reviewId).totalPledged + pledgedAmount } id).executed
            = true := hid
      show (upd s.reviews reviewId
          { s.reviews reviewId with
              totalPledged := (s.reviews reviewId).totalPledged + pledgedAmount } id).exists_
            = true
      by_cases hn : id = reviewId
      · rw [hn, upd_same]
        exact hex
      · rw [upd_ne _ _ _ _ hn] at hid2 ⊢
        exact h.executed_exists id hid2
    · intro id a hid
      have hid2 : (upd s.reviews reviewId
          { s.reviews reviewId with
              totalPledged := (s.reviews reviewId).totalPledged + pledgedAmount } id).executed
            = false := hid
      show (upd2 s.agentShares reviewId sender ⟨pledgedAmount, 0, false⟩ id a).tokenShare = 0
      by_cases hn : id = reviewId
      · rw [hn, upd2_fst]
        by_cases has : a = sender
        · rw [has, upd_same]
        · rw [upd_ne _ _ _ _ has]
          exact h.token_zero reviewId a hexecF
      · rw [upd2_ne _ _ _ _ _ hn]
        rw [upd_ne _ _ _ _ hn] at hid2
        exact h.token_zero id a hid2
    · intro id a hid
      have hid2 : (upd2 s.theses reviewId sender
          ⟨sender, thesis, true, pledgedAmount, now⟩ id a).agent = 0 := hid
      show (upd2 s.agentShares reviewId sender ⟨pledgedAmount, 0, false⟩ id a).pledgedAmount = 0
      by_cases hn : id = reviewId
      · rw [hn] at hid2 ⊢
        by_cases has : a = sender
        · rw [has, upd2_fst, upd_same] at hid2
          exact absurd hid2 hv
        · rw [upd2_fst, upd_ne _ _ _ _ has] at hid2
          rw [upd2_fst, upd_ne _ _ _ _ has]
          exact h.no_thesis_no_pledge reviewId a hid2
      · rw [upd2_ne _ _ _ _ _ hn] at hid2
        rw [upd2_ne _ _ _ _ _ hn]
        exact h.no_thesis_no_pledge id a hid2
    · intro id
      show ((upd s.reviewAgents reviewId (s.reviewAgents reviewId ++ [sender]) id).map
            (fun a => (upd2 s.agentShares reviewId sender ⟨pledgedAmount, 0, false⟩ id a).pledgedAmount)).sum
          = (upd s.reviews reviewId
              { s.reviews reviewId with
                  totalPledged := (s.reviews reviewId).totalPledged + pledgedAmount } id).totalPledged
      by_cases hn : id = reviewId
      · rw [hn, upd_same, upd_same, upd2_fst, List.map_append, List.sum_append]
        have hc : (s.reviewAgents reviewId).map
              (fun a => (upd (s.agentShares reviewId) sender ⟨pledgedAmount, 0, false⟩ a).pledgedAmount)
            = (s.reviewAgents reviewId).map (fun a => (s.agentShares reviewId a).pledgedAmount) := by
          apply List.map_congr_left
          intro a ha
          have hane : a ≠ sender := fun hc2 => hnotmem (by rw [← hc2]; exact ha)
          rw [upd_ne _ _ _ _ hane]
        rw [hc, h.pledged_sum reviewId]
        simp [upd_same]
      · rw [upd_ne _ _ _ _ hn, upd_ne _ _ _ _ hn, upd2_ne _ _ _ _ _ hn]
        exact h.pledged_sum id
  · rw [if_neg hb]
    have hpl0 : (s.agentShares reviewId sender).pledgedAmount = 0 :=
      h.no_thesis_no_pledge reviewId sender h6z
    refine ⟨?_, ?_, ?_, ?_, ?_, ?_, ?_⟩
    · intro id a ha
      have ha2 : a ∈ upd s.reviewAgents reviewId (s.reviewAgents reviewId ++ [sender]) id := ha
      show ((upd2 s.theses reviewId sender ⟨sender, thesis, false, 0, now⟩ id a).agent
          = a ∧ a ≠ 0)
      by_cases hn : id = reviewId
      · rw [hn] at ha2 ⊢
        rw [upd_same] at ha2
        rcases List.mem_append.mp ha2 with haold | hanew
        · have hasne : a ≠ sender := fun hc => hnotmem (hc ▸ haold)
          rw [upd2_fst, upd_ne _ _ _ _ hasne]
          exact h.mem_thesis reviewId a haold
        · have : a = sender := List.mem_singleton.mp hanew
          rw [this, upd2_fst, upd_same]
          exact ⟨rfl, hv⟩
      · rw [upd_ne _ _ _ _ hn] at ha2
        rw [upd2_ne _ _ _ _ _ hn]
        exact h.mem_thesis id a ha2
    · intro id hid
      have hid2 : s.nextReviewId ≤ id := hid
      have hn : id ≠ reviewId := by omega
      show upd s.reviewAgents reviewId (s.reviewAgents reviewId ++ [sender]) id = []
      rw [upd_ne _ _ _ _ hn]
      exact h.fresh_empty id hid2
    · intro id hid
      exact h.exists_lt id hid
    · intro id hid
      exact h.executed_exists id hid
    · intro id a hid
      exact h.token_zero id a hid
    · intro id a hid
      have hid2 : (upd2 s.theses reviewId sender
          ⟨sender, thesis, false, 0, now⟩ id a).agent = 0 := hid
      show (s.agentShares id a).pledgedAmount = 0
      by_cases hn : id = reviewId
      · rw [hn] at hid2 ⊢
        by_cases has : a = sender
        · rw [has, upd2_fst, upd_same] at hid2
          exact absurd hid2 hv
        · rw [upd2_fst, upd_ne _ _ _ _ has] at hid2
          exact h.no_thesis_no_pledge reviewId a hid2
      · rw [upd2_ne _ _ _ _ _ hn] at hid2
        exact h.no_thesis_no_pledge id a hid2
    · intro id
      show ((upd s.reviewAgents reviewId (s.reviewAgents reviewId ++ [sender]) id).map
            (fun a => (s.agentShares id a).pledgedAmount)).sum
          = (s.reviews id).totalPledged
      by_cases hn : id = reviewId
      · rw [hn, upd_same, List.map_append, List.sum_append, h.pledged_sum reviewId]
        simp [hpl0]
      · rw [upd_ne _ _ _ _ hn]
        exact h.pledged_sum id

/-! Characterisation of successful executeReview and claimTokens calls. -/

/-- Storage after a successful executeReview with a nonzero pledge total:
the review is flagged executed with totalPurchased set, and the share map of
the review is rewritten by the allocation loop. -/
def execFinalState (s : State) (reviewId tokensReceived : Nat) : State :=
  { s with
    reviews := upd s.reviews reviewId
      { s.reviews reviewId with executed := true, totalPurchased := tokensReceived },
    agentShares := upd s.agentShares reviewId
      (allocLoop (s.reviews reviewId).totalPledged tokensReceived
        (s.agentShares reviewId) (s.reviewAgents reviewId)) }

theorem executeReview_ok_guards (s : State) (reviewId now tr : Nat) (sendOk : Nat → Bool)
    (r : State × List Event × List ExtCall)
    (hok : executeReview s reviewId now tr sendOk = Except.ok r) :
    (s.reviews reviewId).exists_ = true ∧ (s.reviews reviewId).executed = false
      ∧ ¬ now < (s.reviews reviewId).deadline := by
  unfold executeReview at hok
  by_cases h1 : (s.reviews reviewId).exists_ = false
  · rw [if_pos h1] at hok
    exact Except.noConfusion hok
  rw [if_neg h1] at hok
  by_cases h2 : (s.reviews reviewId).executed = true
  · rw [if_pos h2] at hok
    exact Except.noConfusion hok
  rw [if_neg h2] at hok
  by_cases h3 : now < (s.reviews reviewId).deadline
  · rw [if_pos h3] at hok
    exact Except.noConfusion hok
  refine ⟨?_, ?_, h3⟩
  · cases hb : (s.reviews reviewId).exists_
    · exact absurd hb h1
    · rfl
  · cases hb : (s.reviews reviewId).executed
    · rfl
    · exact absurd hb h2

theorem executeReview_ok_zero_out (s : State) (reviewId now tr : Nat) (sendOk : Nat → Bool)
    (r : State × List Event × List ExtCall)
    (hok : executeReview s reviewId now tr sendOk = Except.ok r)
    (h4 : (s.reviews reviewId).totalPledged = 0) :
    r = (execMarkExecuted s reviewId,
         (distributeSubmissionFee (execMarkExecuted s reviewId) reviewId sendOk).1,
         (distributeSubmissionFee (execMarkExecuted s reviewId) reviewId sendOk).2) := by
  unfold executeReview at hok
  by_cases h1 : (s.reviews reviewId).exists_ = false
  · rw [if_pos h1] at hok
    exact Except.noConfusion hok
  rw [if_neg h1] at hok
  by_cases h2 : (s.reviews reviewId).executed = true
  · rw [if_pos h2] at hok
    exact Except.noConfusion hok
  rw [if_neg h2] at hok
  by_cases h3 : now < (s.reviews reviewId).deadline
  · rw [if_pos h3] at hok
    exact Except.noConfusion hok
  rw [if_neg h3, if_pos h4] at hok
  exact (Except.ok.inj hok).symm

theorem executeReview_ok_state_nonzero (s : State) (reviewId now tr : Nat)
    (sendOk : Nat → Bool) (r : State × List Event × List ExtCall)
    (hok : executeReview s reviewId now tr sendOk = Except.ok r)
    (h4 : (s.reviews reviewId).totalPledged ≠ 0) :
    r.1 = execFinalState s reviewId tr := by
  unfold executeReview at hok
  by_cases h1 : (s.reviews reviewId).exists_ = false
  · rw [if_pos h1] at hok
    exact Except.noConfusion hok
  rw [if_neg h1] at hok
  by_cases h2 : (s.reviews reviewId).executed = true
  · rw [if_pos h2] at hok
    exact Except.noConfusion hok
  rw [if_neg h2] at hok
  by_cases h3 : now < (s.reviews reviewId).deadline
  · rw [if_pos h3] at hok
    exact Except.noConfusion hok
  rw [if_neg h3, if_neg h4] at hok
  have hr := (Except.ok.inj hok).symm
  rw [hr]
  show ({ execMarkExecuted s reviewId with
      reviews := upd (execMarkExecuted s reviewId).reviews reviewId
        { (execMarkExecuted s reviewId).reviews reviewId with totalPurchased := tr },
      agentShares := upd s.agentShares reviewId
        (allocLoop (s.reviews reviewId).totalPledged tr
          (s.agentShares reviewId) (s.reviewAgents reviewId)) } : State)
    = execFinalState s reviewId tr
  apply State.ext <;> try rfl
  show upd (execMarkExecuted s reviewId).reviews reviewId
      { (execMarkExecuted s reviewId).reviews reviewId with totalPurchased := tr }
    = upd s.reviews reviewId
      { s.reviews reviewId with executed := true, totalPurchased := tr }
  have hmark : (execMarkExecuted s reviewId).reviews
      = upd s.reviews reviewId { s.reviews reviewId with executed := true } := rfl
  rw [hmark, upd_upd_same, upd_same]

theorem claimTokens_ok_guards (s : State) (sender reviewId : Nat) (transferOk : Bool)
    (r : State × List Event)
    (hok : claimTokens s sender reviewId transferOk = Except.ok r) :
    (s.reviews reviewId).exists_ = true ∧ (s.reviews reviewId).executed = true
      ∧ (s.agentShares reviewId sender).tokenShare ≠ 0
      ∧ (s.agentShares reviewId sender).claimed = false
      ∧ transferOk = true := by
  unfold claimTokens at hok
  by_cases h1 : (s.reviews reviewId).exists_ = false
  · rw [if_pos h1] at hok
    exact Except.noConfusion hok
  rw [if_neg h1] at hok
  by_cases h2 : (s.reviews reviewId).executed = false
  · rw [if_pos h2] at hok
    exact Except.noConfusion hok
  rw [if_neg h2] at hok
  by_cases h3 : (s.agentShares reviewId sender).tokenShare = 0
  · rw [if_pos h3] at hok
    exact Except.noConfusion hok
  rw [if_neg h3] at hok
  by_cases h4 : (s.agentShares reviewId sender).claimed = true
  · rw [if_pos h4] at hok
    exact Except.noConfusion hok
  rw [if_neg h4] at hok
  by_cases h5 : transferOk = false
  · rw [if_pos h5] at hok
    exact Except.noConfusion hok
  refine ⟨?_, ?_, h3, ?_, ?_⟩
  · cases hb : (s.reviews reviewId).exists_
    · exact absurd hb h1
    · rfl
  · cases hb : (s.reviews reviewId).executed
    · exact absurd hb h2
    · rfl
  · cases hb : (s.agentShares reviewId sender).claimed
    · rfl
    · exact absurd hb h4
  · cases hb : transferOk
    · exact absurd hb h5
    · rfl

/-- Storage after a successful claimTokens call: the share is flagged
claimed and the external ledger credits the caller with the share. -/
def claimFinalState (s : State) (reviewId sender : Nat) : State :=
  let amount := (s.agentShares reviewId sender).tokenShare
  let token := (s.reviews reviewId).tokenAddress
  let s1 := claimMark s reviewId sender
  let ledger2 := upd2 s1.tokenLedger token sender (s1.tokenLedger token sender + amount)
  { s1 with tokenLedger := ledger2 }

theorem claimTokens_ok_out (s : State) (sender reviewId : Nat) (transferOk : Bool)
    (r : State × List Event)
    (hok : claimTokens s sender reviewId transferOk = Except.ok r) :
    r = (claimFinalState s reviewId sender,
         [Event.tokensClaimed reviewId sender (s.agentShares reviewId sender).tokenShare]) := by
  unfold claimTokens at hok
  by_cases h1 : (s.reviews reviewId).exists_ = false
  · rw [if_pos h1] at hok
    exact Except.noConfusion hok
  rw [if_neg h1] at hok
  by_cases h2 : (s.reviews reviewId).executed = false
  · rw [if_pos h2] at hok
    exact Except.noConfusion hok
  rw [if_neg h2] at hok
  by_cases h3 : (s.agentShares reviewId sender).tokenShare = 0
  · rw [if_pos h3] at hok
    exact Except.noConfusion hok
  rw [if_neg h3] at hok
  by_cases h4 : (s.agentShares reviewId sender).claimed = true
  · rw [if_pos h4] at hok
    exact Except.noConfusion hok
  rw [if_neg h4] at hok
  by_cases h5 : transferOk = false
  · rw [if_pos h5] at hok
    exact Except.noConfusion hok
  rw [if_neg h5] at hok
  exact (Except.ok.inj hok).symm

/-! Invariant preservation by executeReview and claimTokens. -/

theorem inv_execMark (s : State) (reviewId : Nat) (h : Inv s)
    (hex : (s.reviews reviewId).exists_ = true) : Inv (execMarkExecuted s reviewId) := by
  refine ⟨?_, ?_, ?_, ?_, ?_, ?_, ?_⟩
  · intro id a ha
    exact h.mem_thesis id a ha
  · intro id hid
    exact h.fresh_empty id hid
  · intro id hid
    have hid2 : (upd s.reviews reviewId
        { s.reviews reviewId with executed := true } id).exists_ = true := hid
    show id < s.nextReviewId
    by_cases hn : id = reviewId
    · rw [hn]
      exact h.exists_lt reviewId hex
    · rw [upd_ne _ _ _ _ hn] at hid2
      exact h.exists_lt id hid2
  · intro id hid
    show (upd s.reviews reviewId
        { s.reviews reviewId with executed := true } id).exists_ = true
    by_cases hn : id = reviewId
    · rw [hn, upd_same]
      exact hex
    · have hid2 : (upd s.reviews reviewId
          { s.reviews reviewId with executed := true } id).executed = true := hid
      rw [upd_ne _ _ _ _ hn] at hid2
      rw [upd_ne _ _ _ _ hn]
      exact h.executed_exists id hid2
  · intro id a hid
    have hid2 : (upd s.reviews reviewId
        { s.reviews reviewId with executed := true } id).executed = false := hid
    show (s.agentShares id a).tokenShare = 0
    by_cases hn : id = reviewId
    · rw [hn, upd_same] at hid2
      exact Bool.noConfusion hid2
    · rw [upd_ne _ _ _ _ hn] at hid2
      exact h.token_zero id a hid2
  · intro id a hid
    exact h.no_thesis_no_pledge id a hid
  · intro id
    show ((s.reviewAgents id).map (fun a => (s.agentShares id a).pledgedAmount)).sum
      = (upd s.reviews reviewId { s.reviews reviewId with executed := true } id).totalPledged
    by_cases hn : id = reviewId
    · rw [hn, upd_same]
      exact h.pledged_sum reviewId
    · rw [upd_ne _ _ _ _ hn]
      exact h.pledged_sum id

theorem inv_execFinal (s : State) (reviewId tr : Nat) (h : Inv s)
    (hex : (s.reviews reviewId).exists_ = true) : Inv (execFinalState s reviewId tr) := by
  refine ⟨?_, ?_, ?_, ?_, ?_, ?_, ?_⟩
  · intro id a ha
    exact h.mem_thesis id a ha
  · intro id hid
    exact h.fresh_empty id hid
  · intro id hid
    have hid2 : (upd s.reviews reviewId
        { s.reviews reviewId with executed := true, totalPurchased := tr } id).exists_
          = true := hid
    show id < s.nextReviewId
    by_cases hn : id = reviewId
    · rw [hn]
      exact h.exists_lt reviewId hex
    · rw [upd_ne _ _ _ _ hn] at hid2
      exact h.exists_lt id hid2
  · intro id hid
    show (upd s.reviews reviewId
        { s.reviews reviewId with executed := true, totalPurchased := tr } id).exists_ = true
    by_cases hn : id = reviewId
    · rw [hn, upd_same]
      exact hex
    · have hid2 : (upd s.reviews reviewId
          { s.reviews reviewId with executed := true, totalPurchased := tr } id).executed
            = true := hid
      rw [upd_ne _ _ _ _ hn] at hid2
      rw [upd_ne _ _ _ _ hn]
      exact h.executed_exists id hid2
  · intro id a hid
    have hid2 : (upd s.reviews reviewId
        { s.reviews reviewId with executed := true, totalPurchased := tr } id).executed
          = false := hid
    show (upd s.agentShares reviewId
        (allocLoop (s.reviews reviewId).totalPledged tr
          (s.agentShares reviewId) (s.reviewAgents reviewId)) id a).tokenShare = 0
    by_cases hn : id = reviewId
    · rw [hn, upd_same] at hid2
      exact Bool.noConfusion hid2
    · rw [upd_ne _ _ _ _ hn] at hid2
      rw [upd_ne _ _ _ _ hn]
      exact h.token_zero id a hid2
  · intro id a hid
    have hid2 : (s.theses id a).agent = 0 := hid
    show (upd s.agentShares reviewId
        (allocLoop (s.reviews reviewId).totalPledged tr
          (s.agentShares reviewId) (s.reviewAgents reviewId)) id a).pledgedAmount = 0
    by_cases hn : id = reviewId
    · rw [hn, upd_same, allocLoop_pledged]
      exact h.no_thesis_no_pledge reviewId a (hn ▸ hid2)
    · rw [upd_ne _ _ _ _ hn]
      exact h.no_thesis_no_pledge id a hid2
  · intro id
    show ((s.reviewAgents id).map
          (fun a => (upd s.agentShares reviewId
            (allocLoop (s.reviews reviewId).totalPledged tr
              (s.agentShares reviewId) (s.reviewAgents reviewId)) id a).pledgedAmount)).sum
      = (upd s.reviews reviewId
          { s.reviews reviewId with executed := true, totalPurchased := tr } id).totalPledged
    by_cases hn : id = reviewId
    · rw [hn, upd_same, upd_same]
      have hc : (s.reviewAgents reviewId).map
            (fun a => ((allocLoop (s.reviews reviewId).totalPledged tr
              (s.agentShares reviewId) (s.reviewAgents reviewId)) a).pledgedAmount)
          = (s.reviewAgents reviewId).map
            (fun a => (s.agentShares reviewId a).pledgedAmount) := by
        apply List.map_congr_left
        intro a _
        rw [allocLoop_pledged]
      rw [hc]
      exact h.pledged_sum reviewId
    · rw [upd_ne _ _ _ _ hn, upd_ne _ _ _ _ hn]
      exact h.pledged_sum id

theorem inv_executeReview (s : State) (reviewId now tr : Nat) (sendOk : Nat → Bool)
    (h : Inv s) : Inv (applyOp (Op.executeReview reviewId now tr sendOk) s) := by
  simp only [applyOp]
  cases hres : executeReview s reviewId now tr sendOk with
  | error e => exact h
  | ok r =>
    show Inv r.1
    obtain ⟨hex, _, _⟩ := executeReview_ok_guards s reviewId now tr sendOk r hres
    by_cases h4 : (s.reviews reviewId).totalPledged = 0
    · rw [executeReview_ok_zero_out s reviewId now tr sendOk r hres h4]
      exact inv_execMark s reviewId h hex
    · rw [executeReview_ok_state_nonzero s reviewId now tr sendOk r hres h4]
      exact inv_execFinal s reviewId tr h hex

theorem inv_claimTokens (s : State) (sender reviewId : Nat) (transferOk : Bool)
    (h : Inv s) : Inv (applyOp (Op.claimTokens sender reviewId transferOk) s) := by
  simp only [applyOp]
  cases hres : claimTokens s sender reviewId transferOk with
  | error e => exact h
  | ok r =>
    show Inv r.1
    obtain ⟨hex, hexec, hsh, hcl, htr⟩ := claimTokens_ok_guards s sender reviewId transferOk r hres
    rw [claimTokens_ok_out s sender reviewId transferOk r hres]
    refine ⟨?_, ?_, ?_, ?_, ?_, ?_, ?_⟩
    · intro id a ha
      exact h.mem_thesis id a ha
    · intro id hid
      exact h.fresh_empty id hid
    · intro id hid
      exact h.exists_lt id hid
    · intro id hid
      exact h.executed_exists id hid
    · intro id a hid
      have hid2 : (s.reviews id).executed = false := hid
      show (upd2 s.agentShares reviewId sender
          { s.agentShares reviewId sender with claimed := true } id a).tokenShare = 0
      by_cases hn : id = reviewId
      · rw [hn] at hid2
        rw [hexec] at hid2
        exact Bool.noConfusion hid2
      · rw [upd2_ne _ _ _ _ _ hn]
        exact h.token_zero id a hid2
    · intro id a hid
      have hid2 : (s.theses id a).agent = 0 := hid
      show (upd2 s.agentShares reviewId sender
          { s.agentShares reviewId sender with claimed := true } id a).pledgedAmount = 0
      by_cases hn : id = reviewId
      · rw [hn, upd2_fst]
        by_cases has : a = sender
        · rw [has, upd_same]
          exact h.no_thesis_no_pledge reviewId sender (by rw [← hn, ← has]; exact hid2)
        · rw [upd_ne _ _ _ _ has]
          exact h.no_thesis_no_pledge reviewId a (hn ▸ hid2)
      · rw [upd2_ne _ _ _ _ _ hn]
        exact h.no_thesis_no_pledge id a hid2
    · intro id
      show ((s.reviewAgents id).map
            (fun a => (upd2 s.agentShares reviewId sender
              { s.agentShares reviewId sender with claimed := true } id a).pledgedAmount)).sum
        = (s.reviews id).totalPledged
      by_cases hn : id = reviewId
      · rw [hn, upd2_fst]
        have hc : (s.reviewAgents reviewId).map
              (fun a => (upd (s.agentShares reviewId) sender
                { s.agentShares reviewId sender with claimed := true } a).pledgedAmount)
            = (s.reviewAgents reviewId).map
              (fun a => (s.agentShares reviewId a).pledgedAmount) := by
          apply List.map_congr_left
          intro a _
          by_cases has : a = sender
          · rw [has, upd_same]
          · rw [upd_ne _ _ _ _ has]
        rw [hc]
        exact h.pledged_sum reviewId
      · rw [upd2_ne _ _ _ _ _ hn]
        exact h.pledged_sum id

theorem inv_preserved (s : State) (op : Op) (h : Inv s) (hv : opValid op) :
    Inv (applyOp op s) := by
  cases op with
  | registerDelegation p a m e sig => exact inv_registerDelegation s p a m e sig h
  | depositForAgent p a v n => exact inv_depositForAgent s p a v n h
  | revokeDelegation p a => exact inv_revokeDelegation s p a h
  | registerAgent p u n => exact inv_registerAgent s p u n h
  | submitToken a b c d e f g => exact inv_submitToken s a b c d e f g h
  | submitThesis a b c d e f g => exact inv_submitThesis s a b c d e f g h hv
  | executeReview a b c d => exact inv_executeReview s a b c d h
  | updateReputation a b c d => exact inv_updateReputation s a b c d h
  | claimTokens a b c => exact inv_claimTokens s a b c h
  | setMemeJobAddress a b => exact inv_setMemeJobAddress s a b h

theorem reachable_inv {s : State} (h : Reachable s) : Inv s := by
  induction h with
  | init d m f w g => exact inv_init d m f w g
  | step op hr hv ih => exact inv_preserved _ op ih hv

/-! Characterisation of the remaining operations on success. -/

theorem registerDelegation_ok_reviews (s : State) (p a m e : Nat) (sig : List Nat) (s1 : State)
    (hok : registerDelegation s p a m e sig = Except.ok s1) : s1.reviews = s.reviews := by
  unfold registerDelegation at hok
  by_cases h1 : a = 0
  · rw [if_pos h1] at hok
    exact Except.noConfusion hok
  rw [if_neg h1] at hok
  by_cases h2 : m = 0
  · rw [if_pos h2] at hok
    exact Except.noConfusion hok
  rw [if_neg h2] at hok
  rw [← Except.ok.inj hok]

theorem depositForAgent_ok_reviews (s : State) (p a v now : Nat) (s1 : State)
    (hok : depositForAgent s p a v now = Except.ok s1) : s1.reviews = s.reviews := by
  unfold depositForAgent at hok
  by_cases h1 : (s.delegations p a).delegate ≠ a
  · rw [if_pos h1] at hok
    exact Except.noConfusion hok
  rw [if_neg h1] at hok
  by_cases h2 : ¬ ((s.delegations p a).expiry = 0 ∨ now < (s.delegations p a).expiry)
  · rw [if_pos h2] at hok
    exact Except.noConfusion hok
  rw [if_neg h2] at hok
  by_cases h3 : v = 0
  · rw [if_pos h3] at hok
    exact Except.noConfusion hok
  rw [if_neg h3] at hok
  rw [← Except.ok.inj hok]

theorem revokeDelegation_ok (s : State) (p a : Nat) (s1 : State)
    (hok : revokeDelegation s p a = Except.ok s1) :
    s1 = { s with delegations := upd2 s.delegations p a emptyDelegation } := by
  unfold revokeDelegation at hok
  by_cases h1 : (s.delegations p a).delegate ≠ a
  · rw [if_pos h1] at hok
    exact Except.noConfusion hok
  rw [if_neg h1] at hok
  exact (Except.ok.inj hok).symm

theorem registerAgent_ok_reviews (s : State) (p : Nat) (uri : String) (now : Nat) (s1 : State)
    (hok : registerAgent s p uri now = Except.ok s1) : s1.reviews = s.reviews := by
  unfold registerAgent at hok
  by_cases h1 : (s.agentIdentities p).agentAddress ≠ 0
  · rw [if_pos h1] at hok
    exact Except.noConfusion hok
  rw [if_neg h1] at hok
  rw [← Except.ok.inj hok]

theorem updateReputation_ok_reviews (s : State) (p reviewId agent : Nat) (profitable : Bool)
    (s1 : State) (hok : updateReputation s p reviewId agent profitable = Except.ok s1) :
    s1.reviews = s.reviews := by
  unfold updateReputation at hok
  by_cases h1 : p ≠ s.owner
  · rw [if_pos h1] at hok
    exact Except.noConfusion hok
  rw [if_neg h1] at hok
  by_cases h2 : (s.reviews reviewId).exists_ = false
  · rw [if_pos h2] at hok
    exact Except.noConfusion hok
  rw [if_neg h2] at hok
  by_cases h3 : (s.reviews reviewId).executed = false
  · rw [if_pos h3] at hok
    exact Except.noConfusion hok
  rw [if_neg h3] at hok
  by_cases h4 : (s.agentShares reviewId agent).pledgedAmount = 0
  · rw [if_pos h4] at hok
    exact Except.noConfusion hok
  rw [if_neg h4] at hok
  by_cases h5 : (s.agentIdentities agent).agentAddress = 0
  · rw [if_pos h5] at hok
    exact Except.noConfusion hok
  rw [if_neg h5] at hok
  rw [← Except.ok.inj hok]

theorem setMemeJobAddress_ok_reviews (s : State) (p addr : Nat) (s1 : State)
    (hok : setMemeJobAddress s p addr = Except.ok s1) : s1.reviews = s.reviews := by
  unfold setMemeJobAddress at hok
  by_cases h1 : p ≠ s.owner
  · rw [if_pos h1] at hok
    exact Except.noConfusion hok
  rw [if_neg h1] at hok
  rw [← Except.ok.inj hok]

theorem submitToken_ok (s : State) (sender token value now : Nat) (resolved schedOk : Bool)
    (schedAddr : Nat) (s1 : State)
    (hok : submitToken s sender token value now resolved schedOk schedAddr = Except.ok s1) :
    s1 = { s with
      nextReviewId := s.nextReviewId + 1,
      reviews := upd s.reviews s.nextReviewId
        ⟨token, sender, value, now + s.REVIEW_WINDOW, false, true, 0, 0, schedAddr⟩ } := by
  unfold submitToken at hok
  by_cases h1 : value < s.MIN_SUBMISSION_FEE
  · rw [if_pos h1] at hok
    exact Except.noConfusion hok
  rw [if_neg h1] at hok
  by_cases h2 : token = 0
  · rw [if_pos h2] at hok
    exact Except.noConfusion hok
  rw [if_neg h2] at hok
  by_cases h3 : resolved = false
  · rw [if_pos h3] at hok
    exact Except.noConfusion hok
  rw [if_neg h3] at hok
  by_cases h4 : schedOk = false
  · rw [if_pos h4] at hok
    exact Except.noConfusion hok
  rw [if_neg h4] at hok
  exact (Except.ok.inj hok).symm

theorem submitThesis_ok_bullish (s : State) (sender reviewId : Nat) (thesis : String)
    (pledgedAmount delegator now : Nat) (s1 : State)
    (hok : submitThesis s sender reviewId thesis true pledgedAmount delegator now
      = Except.ok s1) :
    (s.reviews reviewId).exists_ = true
    ∧ (s.reviews reviewId).executed = false
    ∧ now < (s.reviews reviewId).deadline
    ∧ (s.theses reviewId sender).agent = 0
    ∧ pledgedAmount ≠ 0
    ∧ ¬ s.agentEscrow sender < pledgedAmount
    ∧ s1 = { s with
        agentEscrow := upd s.agentEscrow sender (s.agentEscrow sender - pledgedAmount),
        reviews := upd s.reviews reviewId
          { s.reviews reviewId with
              totalPledged := (s.reviews reviewId).totalPledged + pledgedAmount },
        agentShares := upd2 s.agentShares reviewId sender ⟨pledgedAmount, 0, false⟩,
        theses := upd2 s.theses reviewId sender ⟨sender, thesis, true, pledgedAmount, now⟩,
        reviewAgents := upd s.reviewAgents reviewId (s.reviewAgents reviewId ++ [sender]) } := by
  unfold submitThesis at hok
  by_cases h1 : (s.reviews reviewId).exists_ = false
  · rw [if_pos h1] at hok
    exact Except.noConfusion hok
  rw [if_neg h1] at hok
  by_cases h2 : (s.reviews reviewId).executed = true
  · rw [if_pos h2] at hok
    exact Except.noConfusion hok
  rw [if_neg h2] at hok
  by_cases h3 : ¬ now < (s.reviews reviewId).deadline
  · rw [if_pos h3] at hok
    exact Except.noConfusion hok
  rw [if_neg h3] at hok
  by_cases h4 : (s.delegations delegator sender).delegate ≠ sender
  · rw [if_pos h4] at hok
    exact Except.noConfusion hok
  rw [if_neg h4] at hok
  by_cases h5 : ¬ ((s.delegations delegator sender).expiry = 0
      ∨ now < (s.delegations delegator sender).expiry)
  · rw [if_pos h5] at hok
    exact Except.noConfusion hok
  rw [if_neg h5] at hok
  by_cases h6 : (s.theses reviewId sender).agent ≠ 0
  · rw [if_pos h6] at hok
    exact Except.noConfusion hok
  rw [if_neg h6] at hok
  rw [if_pos rfl] at hok
  by_cases h7 : pledgedAmount = 0
  · rw [if_pos h7] at hok
    exact Except.noConfusion hok
  rw [if_neg h7] at hok
  by_cases h8 : (s.delegations delegator sender).maxAmount < pledgedAmount
  · rw [if_pos h8] at hok
    exact Except.noConfusion hok
  rw [if_neg h8] at hok
  by_cases h9 : s.agentEscrow sender < pledgedAmount
  · rw [if_pos h9] at hok
    exact Except.noConfusion hok
  rw [if_neg h9] at hok
  refine ⟨?_, ?_, ?_, not_not.mp h6, h7, h9, (Except.ok.inj hok).symm⟩
  · cases hb : (s.reviews reviewId).exists_
    · exact absurd hb h1
    · rfl
  · cases hb : (s.reviews reviewId).executed
    · rfl
    · exact absurd hb h2
  · exact not_not.mp h3

theorem submitThesis_ok_bearish (s : State) (sender reviewId : Nat) (thesis : String)
    (pledgedAmount delegator now : Nat) (s1 : State)
    (hok : submitThesis s sender reviewId thesis false pledgedAmount delegator now
      = Except.ok s1) :
    (s.theses reviewId sender).agent = 0
    ∧ s1 = { s with
        theses := upd2 s.theses reviewId sender ⟨sender, thesis, false, 0, now⟩,
        reviewAgents := upd s.reviewAgents reviewId (s.reviewAgents reviewId ++ [sender]) } := by
  unfold submitThesis at hok
  by_cases h1 : (s.reviews reviewId).exists_ = false
  · rw [if_pos h1] at hok
    exact Except.noConfusion hok
  rw [if_neg h1] at hok
  by_cases h2 : (s.reviews reviewId).executed = true
  · rw [if_pos h2] at hok
    exact Except.noConfusion hok
  rw [if_neg h2] at hok
  by_cases h3 : ¬ now < (s.reviews reviewId).deadline
  · rw [if_pos h3] at hok
    exact Except.noConfusion hok
  rw [if_neg h3] at hok
  by_cases h4 : (s.delegations delegator sender).delegate ≠ sender
  · rw [if_pos h4] at hok
    exact Except.noConfusion hok
  rw [if_neg h4] at hok
  by_cases h5 : ¬ ((s.delegations delegator sender).expiry = 0
      ∨ now < (s.delegations delegator sender).expiry)
  · rw [if_pos h5] at hok
    exact Except.noConfusion hok
  rw [if_neg h5] at hok
  by_cases h6 : (s.theses reviewId sender).agent ≠ 0
  · rw [if_pos h6] at hok
    exact Except.noConfusion hok
  rw [if_neg h6] at hok
  rw [if_neg (Bool.false_ne_true)] at hok
  exact ⟨not_not.mp h6, (Except.ok.inj hok).symm⟩

theorem dist_events_shape (s : State) (reviewId : Nat) (sendOk : Nat → Bool) (x : Event)
    (hx : x ∈ (distributeSubmissionFee s reviewId sendOk).1) :
    ∃ a amt, x = Event.feeDistributed reviewId a amt := by
  unfold distributeSubmissionFee at hx
  by_cases hlen : (s.reviewAgents reviewId).length = 0
  · rw [if_pos hlen] at hx
    simp at hx
  · rw [if_neg hlen] at hx
    rcases List.mem_filterMap.mp hx with ⟨p, _, hp⟩
    by_cases h : 0 < p.2 ∧ sendOk p.1 = true
    · rw [if_pos h] at hp
      exact ⟨p.1, p.2, (Option.some.inj hp).symm⟩
    · rw [if_neg h] at hp
      cases hp

/-! Concrete executions used as witnesses: a deployment with owner 1,
MemeJob at 2, no minimum fee, a 10 second review window. -/

/-- A send environment in which every transfer succeeds. -/
def sendAllOk : Nat → Bool := fun _ => true

/-- Evaluate an Except to its success value, or a default. -/
def getOkD {α : Type} (e : Except Err α) (dflt : α) : α :=
  match e with
  | Except.ok a => a
  | Except.error _ => dflt

def baseS : State := initState 1 2 0 10 0

/-- Chain A: principal 11 delegates to agents 21 and 22 and funds both;
creator 5 submits token 7 with fee 6 (review 0, deadline 10); agent 21
pledges 1, agent 22 pledges 3; at time 10 the review executes with 4 tokens
received. -/
def sA1 : State := applyOp (Op.registerDelegation 11 21 100 0 []) baseS

def sA2 : State := applyOp (Op.registerDelegation 11 22 100 0 []) sA1

def sA3 : State := applyOp (Op.depositForAgent 11 21 10 0) sA2

def sA4 : State := applyOp (Op.depositForAgent 11 22 10 0) sA3

def sA5 : State := applyOp (Op.submitToken 5 7 6 0 true true 9) sA4

def sA6 : State := applyOp (Op.submitThesis 21 0 "growth thesis" true 1 11 5) sA5

def sA7 : State := applyOp (Op.submitThesis 22 0 "momentum thesis" true 3 11 5) sA6

def sA : State := applyOp (Op.executeReview 0 10 4 sendAllOk) sA7

theorem reachable_sA7 : Reachable sA7 := by
  have h0 : Reachable baseS := Reachable.init 1 2 0 10 0
  have h1 : Reachable sA1 := Reachable.step _ h0 (by show (11 : Nat) ≠ 0; decide)
  have h2 : Reachable sA2 := Reachable.step _ h1 (by show (11 : Nat) ≠ 0; decide)
  have h3 : Reachable sA3 := Reachable.step _ h2 (by show (11 : Nat) ≠ 0; decide)
  have h4 : Reachable sA4 := Reachable.step _ h3 (by show (11 : Nat) ≠ 0; decide)
  have h5 : Reachable sA5 := Reachable.step _ h4 (by show (5 : Nat) ≠ 0; decide)
  have h6 : Reachable sA6 := Reachable.step _ h5 (by show (21 : Nat) ≠ 0; decide)
  exact Reachable.step _ h6 (by show (22 : Nat) ≠ 0; decide)

theorem reachable_sA : Reachable sA :=
  Reachable.step _ reachable_sA7 trivial

/-- Chain B: one delegation, token 7 submitted with fee 6 (review 0), a
single bearish thesis from agent 21, nothing pledged. -/
def sB1 : State := applyOp (Op.registerDelegation 11 21 5 0 []) baseS

def sB2 : State := applyOp (Op.submitToken 5 7 6 0 true true 9) sB1

def sB : State := applyOp (Op.submitThesis 21 0 "pass" false 0 11 5) sB2

theorem reachable_sB : Reachable sB := by
  have h0 : Reachable baseS := Reachable.init 1 2 0 10 0
  have h1 : Reachable sB1 := Reachable.step _ h0 (by show (11 : Nat) ≠ 0; decide)
  have h2 : Reachable sB2 := Reachable.step _ h1 (by show (5 : Nat) ≠ 0; decide)
  exact Reachable.step _ h2 (by show (21 : Nat) ≠ 0; decide)

/-- Chain B executed: review 0 executes at time 10 with a zero pledge
total. -/
def sC : State := applyOp (Op.executeReview 0 10 0 sendAllOk) sB

theorem reachable_sC : Reachable sC :=
  Reachable.step _ reachable_sB trivial

/-- Chain D: one registered delegation, then revoked. -/
def sD : State := applyOp (Op.registerDelegation 11 21 100 0 []) baseS

def sD2 : State := applyOp (Op.revokeDelegation 11 21) sD

/-- Result of the successful executeReview from sA7. -/
def rA : State × List Event × List ExtCall :=
  getOkD (executeReview sA7 0 10 4 sendAllOk) (sA7, [], [])

/-- Result of the successful executeReview from sB (zero pledge total). -/
def rB : State × List Event × List ExtCall :=
  getOkD (executeReview sB 0 10 0 sendAllOk) (sB, [], [])

/-- Result of the successful claim of agent 22 on review 0 of chain A. -/
def rClaim : State × List Event :=
  getOkD (claimTokens sA 22 0 true) (sA, [])

/-! Claim theorems. -/

/-- C3 counterexample: the claim fails at the zero agent address.  No
delegation from principal 5 to agent 0 was ever registered (the slot holds
the zero record, and registerDelegation refuses a zero agent), yet
depositForAgent succeeds and credits escrow of address 0, and
revokeDelegation also succeeds, because the existence check
d.delegate == agentAddress is vacuously true when agentAddress is 0. -/
theorem deposit_zero_agent_counterexample :
    baseS.delegations 5 0 = emptyDelegation
    ∧ okB (depositForAgent baseS 5 0 7 0) = true
    ∧ (applyOp (Op.depositForAgent 5 0 7 0) baseS).agentEscrow 0 = 7
    ∧ okB (revokeDelegation baseS 5 0) = true := by
  refine ⟨rfl, ?_, ?_, ?_⟩ <;> decide

/-- C3 (amended): for every nonzero agent address with no grant on record
(the delegation slot holds the zero record), depositForAgent and
revokeDelegation both fail with NoDelegation; at the zero agent address the
existence check is vacuous and both calls go through, as the counterexample
shows. -/
theorem deposit_requires_delegation (s : State) (principal agent value now : Nat)
    (ha : agent ≠ 0) (hno : s.delegations principal agent = emptyDelegation) :
    depositForAgent s principal agent value now = Except.error Err.noDelegation
    ∧ revokeDelegation s principal agent = Except.error Err.noDelegation := by
  have hdel : (s.delegations principal agent).delegate = 0 := by
    rw [hno]
    rfl
  constructor
  · unfold depositForAgent
    rw [if_pos (by rw [hdel]; exact fun hc => ha hc.symm)]
  · unfold revokeDelegation
    rw [if_pos (by rw [hdel]; exact fun hc => ha hc.symm)]

/-- C3 witness: no grant from 5 to 9 exists in the deployment state, and
both calls fail with NoDelegation. -/
theorem deposit_requires_delegation_witness :
    depositForAgent baseS 5 9 7 0 = Except.error Err.noDelegation
    ∧ revokeDelegation baseS 5 9 = Except.error Err.noDelegation :=
  deposit_requires_delegation baseS 5 9 7 0 (by decide) rfl

/-- C4: for every nonempty submitter list the fee split pays
perAgent = floor(fee / n) to every submitter but the last, the last gets
perAgent plus the remainder, and the payouts sum to exactly the fee. -/
theorem feeDistribution_exact (agents : List Nat) (fee : Nat) (h : agents ≠ []) :
    (feePayouts agents fee).map Prod.fst = agents
    ∧ (feePayouts agents fee).map Prod.snd
        = List.replicate (agents.length - 1) (fee / agents.length)
          ++ [fee / agents.length + (fee - fee / agents.length * agents.length)]
    ∧ ((feePayouts agents fee).map Prod.snd).sum = fee := by
  have hlen : (feeAmounts agents.length fee).length = agents.length := feeAmounts_length _ _
  have hn : agents.length ≠ 0 := by
    intro hc
    exact h (List.length_eq_zero.mp hc)
  refine ⟨?_, ?_, ?_⟩
  · unfold feePayouts
    exact List.map_fst_zip _ _ (le_of_eq hlen.symm)
  · unfold feePayouts
    rw [List.map_snd_zip _ _ (le_of_eq hlen), feeAmounts_eq _ _ hn]
  · unfold feePayouts
    rw [List.map_snd_zip _ _ (le_of_eq hlen), feeAmounts_sum _ _ hn]

/-- C4 witness: three submitters and fee 100 give payouts 33, 33, 34,
summing to 100 (the last submitter takes the remainder). -/
theorem feeDistribution_exact_witness :
    (feePayouts [1, 2, 3] 100).map Prod.fst = [1, 2, 3]
    ∧ (feePayouts [1, 2, 3] 100).map Prod.snd = [33, 33, 34]
    ∧ ((feePayouts [1, 2, 3] 100).map Prod.snd).sum = 100 := by
  have h := feeDistribution_exact [1, 2, 3] 100 (by decide)
  exact ⟨h.1, h.2.1.trans (by decide), h.2.2⟩

/-- C5: during fee distribution a failed transfer does not abort the loop:
the list of attempted value sends is the same under every transfer-outcome
environment, every positive payout is attempted no matter which other
transfers fail, and every agent whose own transfer succeeds is paid no
matter which other transfers fail. -/
theorem feeDistribution_failure_isolated (s : State) (reviewId : Nat)
    (sendOk sendOk2 : Nat → Bool) :
    (distributeSubmissionFee s reviewId sendOk).2
        = (distributeSubmissionFee s reviewId sendOk2).2
    ∧ (∀ a amt,
        (a, amt) ∈ feePayouts (s.reviewAgents reviewId) ((s.reviews reviewId).submissionFee) →
        0 < amt → ExtCall.sendValue a amt ∈ (distributeSubmissionFee s reviewId sendOk).2)
    ∧ (∀ a amt,
        (a, amt) ∈ feePayouts (s.reviewAgents reviewId) ((s.reviews reviewId).submissionFee) →
        0 < amt → sendOk a = true →
        Event.feeDistributed reviewId a amt ∈ (distributeSubmissionFee s reviewId sendOk).1) :=
  ⟨dist_calls_indep s reviewId sendOk sendOk2,
   fun a amt hmem hpos => dist_calls_mem s reviewId sendOk a amt hmem hpos,
   fun a amt hmem hpos hok => dist_events_mem s reviewId sendOk a amt hmem hpos hok⟩

/-- C9: a successful revokeDelegation deletes exactly the (principal, agent)
delegation record and changes nothing else: all other delegation slots,
escrow balances, reviews, theses, participant lists, shares, identities,
the external token ledger, and the scalar fields are untouched. -/
theorem revokeDelegation_frame (s s2 : State) (principal agent : Nat)
    (hok : revokeDelegation s principal agent = Except.ok s2) :
    s2.delegations principal agent = emptyDelegation
    ∧ (∀ p2 a2, ¬ (p2 = principal ∧ a2 = agent) →
        s2.delegations p2 a2 = s.delegations p2 a2)
    ∧ s2.agentEscrow = s.agentEscrow
    ∧ s2.reviews = s.reviews
    ∧ s2.theses = s.theses
    ∧ s2.reviewAgents = s.reviewAgents
    ∧ s2.agentShares = s.agentShares
    ∧ s2.agentIdentities = s.agentIdentities
    ∧ s2.tokenLedger = s.tokenLedger
    ∧ s2.owner = s.owner
    ∧ s2.memeJobAddress = s.memeJobAddress
    ∧ s2.nextReviewId = s.nextReviewId := by
  rw [revokeDelegation_ok s principal agent s2 hok]
  refine ⟨?_, ?_, rfl, rfl, rfl, rfl, rfl, rfl, rfl, rfl, rfl, rfl⟩
  · show upd2 s.delegations principal agent emptyDelegation principal agent = emptyDelegation
    rw [upd2_fst, upd_same]
  · intro p2 a2 hne
    show upd2 s.delegations principal agent emptyDelegation p2 a2 = s.delegations p2 a2
    by_cases hp : p2 = principal
    · have ha2 : a2 ≠ agent := fun hc => hne ⟨hp, hc⟩
      rw [hp, upd2_fst, upd_ne _ _ _ _ ha2]
    · rw [upd2_ne _ _ _ _ _ hp]

/-- C9 witness: after registering a delegation from 11 to 21 and revoking
it, the slot is the zero record while an unrelated slot, the escrow of 21
and review 0 are unchanged. -/
theorem revokeDelegation_frame_witness :
    sD2.delegations 11 21 = emptyDelegation
    ∧ sD2.delegations 11 22 = sD.delegations 11 22
    ∧ sD2.agentEscrow 21 = sD.agentEscrow 21
    ∧ sD2.reviews 0 = sD.reviews 0 := by
  have h := revokeDelegation_frame sD sD2 11 21 rfl
  exact ⟨h.1, h.2.1 11 22 (by decide), congrFun h.2.2.1 21, congrFun h.2.2.2.1 0⟩

/-- C10: when the token transfer inside claimTokens returns false, the
whole call fails with TransferFailed and reverts, so the chain state is
unchanged (the claimed flag stays false) and the same claim still succeeds
later once the transfer cooperates. -/
theorem claimTokens_transfer_fail (s : State) (sender reviewId : Nat)
    (hex : (s.reviews reviewId).exists_ = true)
    (hexec : (s.reviews reviewId).executed = true)
    (hsh : (s.agentShares reviewId sender).tokenShare ≠ 0)
    (hcl : (s.agentShares reviewId sender).claimed = false) :
    claimTokens s sender reviewId false = Except.error Err.transferFailed
    ∧ applyOp (Op.claimTokens sender reviewId false) s = s
    ∧ okB (claimTokens s sender reviewId true) = true := by
  have herr : claimTokens s sender reviewId false = Except.error Err.transferFailed := by
    unfold claimTokens
    rw [if_neg (by simp [hex]), if_neg (by simp [hexec]), if_neg hsh,
      if_neg (by simp [hcl]), if_pos rfl]
  refine ⟨herr, ?_, ?_⟩
  · simp only [applyOp]
    rw [herr]
  · unfold claimTokens
    rw [if_neg (by simp [hex]), if_neg (by simp [hexec]), if_neg hsh,
      if_neg (by simp [hcl]), if_neg (by simp)]
    rfl

/-- C10 witness: on the executed review 0 of chain A, agent 21 holds an
unclaimed share of 1; a failing transfer yields TransferFailed with the
state unchanged, and the claim with a cooperating transfer succeeds. -/
theorem claimTokens_transfer_fail_witness :
    claimTokens sA 21 0 false = Except.error Err.transferFailed
    ∧ applyOp (Op.claimTokens 21 0 false) sA = sA
    ∧ okB (claimTokens sA 21 0 true) = true :=
  claimTokens_transfer_fail sA 21 0 rfl rfl (by decide) rfl

/-- Helper: executeReview on an existing review whose executed flag is
already set always fails with AlreadyExecuted. -/
theorem executeReview_already (s : State) (reviewId : Nat)
    (hex : (s.reviews reviewId).exists_ = true) (hexec : (s.reviews reviewId).executed = true)
    (now tr : Nat) (sendOk : Nat → Bool) :
    executeReview s reviewId now tr sendOk = Except.error Err.alreadyExecuted := by
  unfold executeReview
  rw [if_neg (by simp [hex]), if_pos hexec]

/-- Helper: claimTokens on an executed review where the caller holds a
nonzero share already flagged claimed always fails with AlreadyClaimed. -/
theorem claimTokens_already (s : State) (sender reviewId : Nat) (transferOk : Bool)
    (hex : (s.reviews reviewId).exists_ = true) (hexec : (s.reviews reviewId).executed = true)
    (hsh : (s.agentShares reviewId sender).tokenShare ≠ 0)
    (hcl : (s.agentShares reviewId sender).claimed = true) :
    claimTokens s sender reviewId transferOk = Except.error Err.alreadyClaimed := by
  unfold claimTokens
  rw [if_neg (by simp [hex]), if_neg (by simp [hexec]), if_neg hsh, if_pos hcl]

/-- C1: executeReview succeeds at most once per review.  (a) The state the
external venue call observes (the flag write of L483) already has
executed = true; (b) on any state with the flag set, a reentrant or later
call fails closed with AlreadyExecuted; (c) a successful call leaves the
flag set, so a second call fails with AlreadyExecuted; (d) no operation of
the contract ever resets the flag. -/
theorem executeReview_at_most_once (s : State) (reviewId : Nat) (hr : Reachable s) :
    ((execMarkExecuted s reviewId).reviews reviewId).executed = true
    ∧ (∀ s2 : State, (s2.reviews reviewId).exists_ = true →
        (s2.reviews reviewId).executed = true →
        ∀ now tr sendOk, executeReview s2 reviewId now tr sendOk
          = Except.error Err.alreadyExecuted)
    ∧ (∀ now tr sendOk r, executeReview s reviewId now tr sendOk = Except.ok r →
        ((r.1.reviews reviewId).executed = true
          ∧ (r.1.reviews reviewId).exists_ = true
          ∧ ∀ now2 tr2 sendOk2, executeReview r.1 reviewId now2 tr2 sendOk2
              = Except.error Err.alreadyExecuted))
    ∧ (∀ op, opValid op → (s.reviews reviewId).executed = true →
        ((applyOp op s).reviews reviewId).executed = true) := by
  have hinv := reachable_inv hr
  refine ⟨?_, ?_, ?_, ?_⟩
  · show (upd s.reviews reviewId { s.reviews reviewId with executed := true }
        reviewId).executed = true
    rw [upd_same]
  · intro s2 hex hexec now tr sendOk
    exact executeReview_already s2 reviewId hex hexec now tr sendOk
  · intro now tr sendOk r hok
    obtain ⟨hex, _, _⟩ := executeReview_ok_guards s reviewId now tr sendOk r hok
    by_cases h4 : (s.reviews reviewId).totalPledged = 0
    · rw [executeReview_ok_zero_out s reviewId now tr sendOk r hok h4]
      have hexec2 : ((execMarkExecuted s reviewId).reviews reviewId).executed = true := by
        show (upd s.reviews reviewId { s.reviews reviewId with executed := true }
            reviewId).executed = true
        rw [upd_same]
      have hex2 : ((execMarkExecuted s reviewId).reviews reviewId).exists_ = true := by
        show (upd s.reviews reviewId { s.reviews reviewId with executed := true }
            reviewId).exists_ = true
        rw [upd_same]
        exact hex
      exact ⟨hexec2, hex2,
        fun now2 tr2 sendOk2 =>
          executeReview_already (execMarkExecuted s reviewId) reviewId hex2 hexec2
            now2 tr2 sendOk2⟩
    · rw [executeReview_ok_state_nonzero s reviewId now tr sendOk r hok h4]
      have hexec2 : ((execFinalState s reviewId tr).reviews reviewId).executed = true := by
        show (upd s.reviews reviewId
            { s.reviews reviewId with executed := true, totalPurchased := tr }
            reviewId).executed = true
        rw [upd_same]
      have hex2 : ((execFinalState s reviewId tr).reviews reviewId).exists_ = true := by
        show (upd s.reviews reviewId
            { s.reviews reviewId with executed := true, totalPurchased := tr }
            reviewId).exists_ = true
        rw [upd_same]
        exact hex
      exact ⟨hexec2, hex2,
        fun now2 tr2 sendOk2 =>
          executeReview_already (execFinalState s reviewId tr) reviewId hex2 hexec2
            now2 tr2 sendOk2⟩
  · intro op hv hexec
    cases op with
    | registerDelegation p a m e sig =>
      simp only [applyOp]
      cases hres : registerDelegation s p a m e sig with
      | error e2 => exact hexec
      | ok s1 =>
        show (s1.reviews reviewId).executed = true
        rw [registerDelegation_ok_reviews s p a m e sig s1 hres]
        exact hexec
    | depositForAgent p a v n =>
      simp only [applyOp]
      cases hres : depositForAgent s p a v n with
      | error e2 => exact hexec
      | ok s1 =>
        show (s1.reviews reviewId).executed = true
        rw [depositForAgent_ok_reviews s p a v n s1 hres]
        exact hexec
    | revokeDelegation p a =>
      simp only [applyOp]
      cases hres : revokeDelegation s p a with
      | error e2 => exact hexec
      | ok s1 =>
        show (s1.reviews reviewId).executed = true
        rw [revokeDelegation_ok s p a s1 hres]
        exact hexec
    | registerAgent p u n =>
      simp only [applyOp]
      cases hres : registerAgent s p u n with
      | error e2 => exact hexec
      | ok s1 =>
        show (s1.reviews reviewId).executed = true
        rw [registerAgent_ok_reviews s p u n s1 hres]
        exact hexec
    | submitToken a b c d e f g =>
      simp only [applyOp]
      cases hres : submitToken s a b c d e f g with
      | error e2 => exact hexec
      | ok s1 =>
        show (s1.reviews reviewId).executed = true
        rw [submitToken_ok s a b c d e f g s1 hres]
        show (upd s.reviews s.nextReviewId
            ⟨b, a, c, d + s.REVIEW_WINDOW, false, true, 0, 0, g⟩ reviewId).executed = true
        by_cases hn : reviewId = s.nextReviewId
        · exfalso
          have hexi := hinv.executed_exists reviewId hexec
          have := hinv.exists_lt reviewId hexi
          omega
        · rw [upd_ne _ _ _ _ hn]
          exact hexec
    | submitThesis sender rid th b pl del n2 =>
      simp only [applyOp]
      cases hres : submitThesis s sender rid th b pl del n2 with
      | error e2 => exact hexec
      | ok s1 =>
        show (s1.reviews reviewId).executed = true
        cases b with
        | false =>
          obtain ⟨_, hs1⟩ := submitThesis_ok_bearish s sender rid th pl del n2 s1 hres
          rw [hs1]
          exact hexec
        | true =>
          obtain ⟨_, _, _, _, _, _, hs1⟩ :=
            submitThesis_ok_bullish s sender rid th pl del n2 s1 hres
          rw [hs1]
          show (upd s.reviews rid
              { s.reviews rid with
                  totalPledged := (s.reviews rid).totalPledged + pl } reviewId).executed = true
          by_cases hn : reviewId = rid
          · rw [hn] at hexec
            rw [hn, upd_same]
            exact hexec
          · rw [upd_ne _ _ _ _ hn]
            exact hexec
    | executeReview rid n2 tr2 so2 =>
      simp only [applyOp]
      cases hres : executeReview s rid n2 tr2 so2 with
      | error e2 => exact hexec
      | ok r =>
        show (r.1.reviews reviewId).executed = true
        by_cases h4 : (s.reviews rid).totalPledged = 0
        · rw [executeReview_ok_zero_out s rid n2 tr2 so2 r hres h4]
          show (upd s.reviews rid { s.reviews rid with executed := true } reviewId).executed
            = true
          by_cases hn : reviewId = rid
          · rw [hn, upd_same]
          · rw [upd_ne _ _ _ _ hn]
            exact hexec
        · rw [executeReview_ok_state_nonzero s rid n2 tr2 so2 r hres h4]
          show (upd s.reviews rid
              { s.reviews rid with executed := true, totalPurchased := tr2 }
              reviewId).executed = true
          by_cases hn : reviewId = rid
          · rw [hn, upd_same]
          · rw [upd_ne _ _ _ _ hn]
            exact hexec
    | updateReputation a b c d =>
      simp only [applyOp]
      cases hres : updateReputation s a b c d with
      | error e2 => exact hexec
      | ok s1 =>
        show (s1.reviews reviewId).executed = true
        rw [updateReputation_ok_reviews s a b c d s1 hres]
        exact hexec
    | claimTokens a b c =>
      simp only [applyOp]
      cases hres : claimTokens s a b c with
      | error e2 => exact hexec
      | ok r =>
        show (r.1.reviews reviewId).executed = true
        rw [claimTokens_ok_out s a b c r hres]
        exact hexec
    | setMemeJobAddress a b =>
      simp only [applyOp]
      cases hres : setMemeJobAddress s a b with
      | error e2 => exact hexec
      | ok s1 =>
        show (s1.reviews reviewId).executed = true
        rw [setMemeJobAddress_ok_reviews s a b s1 hres]
        exact hexec

/-- C1 witness: review 0 of chain B is executed in sC; a second call fails
with AlreadyExecuted, and the flag-write state of chain B already shows
executed = true. -/
theorem executeReview_at_most_once_witness :
    executeReview sC 0 11 0 sendAllOk = Except.error Err.alreadyExecuted
    ∧ ((execMarkExecuted sB 0).reviews 0).executed = true :=
  ⟨(executeReview_at_most_once sC 0 reachable_sC).2.1 sC rfl rfl 11 0 sendAllOk,
   (executeReview_at_most_once sB 0 reachable_sB).1⟩

/-- C6: on an existing review, claimTokens fails with NotExecuted before
execution, NoShare when the caller holds no token share, AlreadyClaimed
when the share is flagged claimed; the flag is written before the external
transfer (the intermediate state of L580 already rejects a reentrant
claim); and a successful claim flags the share, credits the caller with
exactly tokenShare in the external ledger, and makes every further claim
fail with AlreadyClaimed. -/
theorem claimTokens_spec (s : State) (sender reviewId : Nat)
    (hex : (s.reviews reviewId).exists_ = true) :
    ((s.reviews reviewId).executed = false →
      ∀ transferOk, claimTokens s sender reviewId transferOk
        = Except.error Err.notExecuted)
    ∧ ((s.reviews reviewId).executed = true →
        (s.agentShares reviewId sender).tokenShare = 0 →
      ∀ transferOk, claimTokens s sender reviewId transferOk = Except.error Err.noShare)
    ∧ ((s.reviews reviewId).executed = true →
        (s.agentShares reviewId sender).tokenShare ≠ 0 →
        (s.agentShares reviewId sender).claimed = true →
      ∀ transferOk, claimTokens s sender reviewId transferOk
        = Except.error Err.alreadyClaimed)
    ∧ ((s.reviews reviewId).executed = true →
        (s.agentShares reviewId sender).tokenShare ≠ 0 →
      ∀ transferOk, claimTokens (claimMark s reviewId sender) sender reviewId transferOk
        = Except.error Err.alreadyClaimed)
    ∧ (∀ r, claimTokens s sender reviewId true = Except.ok r →
        ((r.1.agentShares reviewId sender).claimed = true
          ∧ r.1.tokenLedger (s.reviews reviewId).tokenAddress sender
              = s.tokenLedger (s.reviews reviewId).tokenAddress sender
                + (s.agentShares reviewId sender).tokenShare
          ∧ ∀ transferOk, claimTokens r.1 sender reviewId transferOk
              = Except.error Err.alreadyClaimed)) := by
  have hmark_sh : ((claimMark s reviewId sender).agentShares reviewId sender).tokenShare
      = (s.agentShares reviewId sender).tokenShare := by
    show (upd2 s.agentShares reviewId sender
        { s.agentShares reviewId sender with claimed := true } reviewId sender).tokenShare
      = (s.agentShares reviewId sender).tokenShare
    rw [upd2_fst, upd_same]
  have hmark_cl : ((claimMark s reviewId sender).agentShares reviewId sender).claimed
      = true := by
    show (upd2 s.agentShares reviewId sender
        { s.agentShares reviewId sender with claimed := true } reviewId sender).claimed = true
    rw [upd2_fst, upd_same]
  refine ⟨?_, ?_, ?_, ?_, ?_⟩
  · intro hne transferOk
    unfold claimTokens
    rw [if_neg (by simp [hex]), if_pos hne]
  · intro hexec hz transferOk
    unfold claimTokens
    rw [if_neg (by simp [hex]), if_neg (by simp [hexec]), if_pos hz]
  · intro hexec hsh hcl transferOk
    exact claimTokens_already s sender reviewId transferOk hex hexec hsh hcl
  · intro hexec hsh transferOk
    refine claimTokens_already (claimMark s reviewId sender) sender reviewId transferOk
      hex hexec ?_ hmark_cl
    rw [hmark_sh]
    exact hsh
  · intro r hok
    obtain ⟨_, hexec, hsh, _, _⟩ := claimTokens_ok_guards s sender reviewId true r hok
    rw [claimTokens_ok_out s sender reviewId true r hok]
    refine ⟨hmark_cl, ?_, ?_⟩
    · show (upd2 s.tokenLedger (s.reviews reviewId).tokenAddress sender
          (s.tokenLedger (s.reviews reviewId).tokenAddress sender
            + (s.agentShares reviewId sender).tokenShare)
          (s.reviews reviewId).tokenAddress sender)
        = s.tokenLedger (s.reviews reviewId).tokenAddress sender
          + (s.agentShares reviewId sender).tokenShare
      rw [upd2_fst, upd_same]
    · intro transferOk
      refine claimTokens_already (claimFinalState s reviewId sender) sender reviewId
        transferOk hex hexec ?_ hmark_cl
      show ((claimMark s reviewId sender).agentShares reviewId sender).tokenShare ≠ 0
      rw [hmark_sh]
      exact hsh

/-- C6 witness: agent 22 claims its share of 3 on review 0 of chain A; the
share is flagged claimed, the ledger credits 22 with exactly 3, and a
second claim fails with AlreadyClaimed. -/
theorem claimTokens_spec_witness :
    (rClaim.1.agentShares 0 22).claimed = true
    ∧ rClaim.1.tokenLedger 7 22 = sA.tokenLedger 7 22 + 3
    ∧ claimTokens rClaim.1 22 0 true = Except.error Err.alreadyClaimed := by
  have h := (claimTokens_spec sA 22 0 rfl).2.2.2.2 rClaim rfl
  exact ⟨h.1, h.2.1, h.2.2 true⟩

/-- C8: a successful executeReview on a review with a zero pledge total
skips the purchase (totalPurchased is unchanged and no buyJob call is
made), still distributes the submission fee to the recorded submitters,
emits no ReviewExecuted notification, marks the review executed, and with
zero submitters makes no distribution attempt at all. -/
theorem executeReview_zero_pledged (s : State) (reviewId now tr : Nat) (sendOk : Nat → Bool)
    (r : State × List Event × List ExtCall)
    (hok : executeReview s reviewId now tr sendOk = Except.ok r)
    (hzero : (s.reviews reviewId).totalPledged = 0) :
    (r.1.reviews reviewId).executed = true
    ∧ (r.1.reviews reviewId).totalPurchased = (s.reviews reviewId).totalPurchased
    ∧ r.2.1 = (distributeSubmissionFee (execMarkExecuted s reviewId) reviewId sendOk).1
    ∧ r.2.2 = (distributeSubmissionFee (execMarkExecuted s reviewId) reviewId sendOk).2
    ∧ (∀ m t v, ExtCall.buyJob m t v ∉ r.2.2)
    ∧ (∀ x y z, Event.reviewExecuted x y z ∉ r.2.1)
    ∧ (s.reviewAgents reviewId = [] → r.2.1 = [] ∧ r.2.2 = []) := by
  rw [executeReview_ok_zero_out s reviewId now tr sendOk r hok hzero]
  refine ⟨?_, ?_, rfl, rfl, ?_, ?_, ?_⟩
  · show (upd s.reviews reviewId { s.reviews reviewId with executed := true }
        reviewId).executed = true
    rw [upd_same]
  · show (upd s.reviews reviewId { s.reviews reviewId with executed := true }
        reviewId).totalPurchased = (s.reviews reviewId).totalPurchased
    rw [upd_same]
  · intro m t v hmem
    rcases dist_calls_shape _ _ _ _ hmem with ⟨a, amt, heq⟩
    exact ExtCall.noConfusion heq
  · intro x y z hmem
    rcases dist_events_shape _ _ _ _ hmem with ⟨a, amt, heq⟩
    exact Event.noConfusion heq
  · intro hempty
    have hempty2 : (execMarkExecuted s reviewId).reviewAgents reviewId = [] := hempty
    rw [dist_empty _ _ _ hempty2]
    exact ⟨rfl, rfl⟩

/-- C8 witness: review 0 of chain B has one bearish submitter and a zero
pledge total; executing it marks the review executed, pays only the fee
send of 6 to agent 21, and emits no ReviewExecuted event. -/
theorem executeReview_zero_pledged_witness :
    (rB.1.reviews 0).executed = true
    ∧ rB.2.2 = [ExtCall.sendValue 21 6]
    ∧ Event.reviewExecuted 0 0 0 ∉ rB.2.1 := by
  have h := executeReview_zero_pledged sB 0 10 0 sendAllOk rB rfl rfl
  exact ⟨h.1, h.2.2.2.1.trans (by decide), h.2.2.2.2.2.1 0 0 0⟩

/-- C7: in every reachable state, the pledged amounts recorded in the
shares of each review sum (over the participant list) to the review's
totalPledged; a successful bullish submitThesis raises totalPledged by its
pledge, debits exactly that amount from the caller's escrow and records it
in the new share, touching no other review's total; a successful bearish
submitThesis changes no review, no escrow balance and no share. -/
theorem pledged_sum_invariant (s : State) (hr : Reachable s) :
    (∀ reviewId,
      ((s.reviewAgents reviewId).map
          (fun a => (s.agentShares reviewId a).pledgedAmount)).sum
        = (s.reviews reviewId).totalPledged)
    ∧ (∀ sender reviewId thesis pledged delegator now s1,
        submitThesis s sender reviewId thesis true pledged delegator now = Except.ok s1 →
          ((s1.reviews reviewId).totalPledged
              = (s.reviews reviewId).totalPledged + pledged
            ∧ s1.agentEscrow sender + pledged = s.agentEscrow sender
            ∧ (s1.agentShares reviewId sender).pledgedAmount = pledged
            ∧ ∀ reviewId2, reviewId2 ≠ reviewId →
                (s1.reviews reviewId2).totalPledged = (s.reviews reviewId2).totalPledged))
    ∧ (∀ sender reviewId thesis pledged delegator now s1,
        submitThesis s sender reviewId thesis false pledged delegator now = Except.ok s1 →
          (s1.reviews = s.reviews
            ∧ s1.agentEscrow = s.agentEscrow
            ∧ s1.agentShares = s.agentShares)) := by
  refine ⟨(reachable_inv hr).pledged_sum, ?_, ?_⟩
  · intro sender reviewId thesis pledged delegator now s1 hok
    obtain ⟨_, _, _, _, _, h9, hs1⟩ :=
      submitThesis_ok_bullish s sender reviewId thesis pledged delegator now s1 hok
    rw [hs1]
    refine ⟨?_, ?_, ?_, ?_⟩
    · show (upd s.reviews reviewId
          { s.reviews reviewId with
              totalPledged := (s.reviews reviewId).totalPledged + pledged }
          reviewId).totalPledged = (s.reviews reviewId).totalPledged + pledged
      rw [upd_same]
    · show upd s.agentEscrow sender (s.agentEscrow sender - pledged) sender + pledged
        = s.agentEscrow sender
      rw [upd_same]
      omega
    · show (upd2 s.agentShares reviewId sender ⟨pledged, 0, false⟩
          reviewId sender).pledgedAmount = pledged
      rw [upd2_fst, upd_same]
    · intro reviewId2 hne
      show (upd s.reviews reviewId
          { s.reviews reviewId with
              totalPledged := (s.reviews reviewId).totalPledged + pledged }
          reviewId2).totalPledged = (s.reviews reviewId2).totalPledged
      rw [upd_ne _ _ _ _ hne]
  · intro sender reviewId thesis pledged delegator now s1 hok
    obtain ⟨_, hs1⟩ :=
      submitThesis_ok_bearish s sender reviewId thesis pledged delegator now s1 hok
    rw [hs1]
    exact ⟨rfl, rfl, rfl⟩

/-- C7 witness: on review 0 of chain A the recorded pledges 1 and 3 sum to
the totalPledged of 4. -/
theorem pledged_sum_invariant_witness :
    ((sA.reviewAgents 0).map (fun a => (sA.agentShares 0 a).pledgedAmount)).sum
      = (sA.reviews 0).totalPledged :=
  (pledged_sum_invariant sA reachable_sA).1 0

/-- C2 counterexample: the claim states the share sum equals totalPurchased
only when totalPledged divides every pledge evenly.  On chain A the pledges
are 1 and 3 with totalPledged 4 and totalPurchased 4: the shares 1 and 3
sum to exactly totalPurchased although 4 does not divide the pledge 1. -/
theorem tokenShare_equality_counterexample :
    (sA.reviews 0).totalPledged = 4
    ∧ (sA.reviews 0).totalPurchased = 4
    ∧ 21 ∈ sA.reviewAgents 0
    ∧ (sA.agentShares 0 21).pledgedAmount = 1
    ∧ ((sA.reviewAgents 0).map (fun a => (sA.agentShares 0 a).tokenShare)).sum
        = (sA.reviews 0).totalPurchased
    ∧ ¬ (sA.reviews 0).totalPledged ∣ (sA.agentShares 0 21).pledgedAmount := by
  decide

/-- C2 (amended): for every reachable state and successful executeReview
with totalPledged and tokensReceived nonzero, totalPurchased is set to the
received amount, every participant gets
tokenShare = floor(pledgedAmount * totalPurchased / totalPledged) (in
particular bearish participants with pledgedAmount 0 get 0), the shares
sum to at most totalPurchased, the sum equals totalPurchased exactly when
totalPledged divides pledgedAmount * totalPurchased for every participant
(rather than every pledge alone, as the counterexample shows), and the
deficit is strictly below the participant count. -/
theorem tokenShare_allocation (s : State) (reviewId now tr : Nat) (sendOk : Nat → Bool)
    (r : State × List Event × List ExtCall) (hr : Reachable s)
    (hok : executeReview s reviewId now tr sendOk = Except.ok r)
    (hP : (s.reviews reviewId).totalPledged ≠ 0) (hT : tr ≠ 0) :
    (r.1.reviews reviewId).totalPurchased = tr
    ∧ (∀ a ∈ s.reviewAgents reviewId,
        (r.1.agentShares reviewId a).tokenShare
          = (s.agentShares reviewId a).pledgedAmount * tr / (s.reviews reviewId).totalPledged)
    ∧ (∀ a ∈ s.reviewAgents reviewId, (s.agentShares reviewId a).pledgedAmount = 0 →
        (r.1.agentShares reviewId a).tokenShare = 0)
    ∧ ((s.reviewAgents reviewId).map
        (fun a => (r.1.agentShares reviewId a).tokenShare)).sum ≤ tr
    ∧ (((s.reviewAgents reviewId).map
          (fun a => (r.1.agentShares reviewId a).tokenShare)).sum = tr
        ↔ ∀ a ∈ s.reviewAgents reviewId,
            (s.reviews reviewId).totalPledged ∣ (s.agentShares reviewId a).pledgedAmount * tr)
    ∧ tr - ((s.reviewAgents reviewId).map
          (fun a => (r.1.agentShares reviewId a).tokenShare)).sum
        < (s.reviewAgents reviewId).length := by
  have hinv := reachable_inv hr
  obtain ⟨hex, hexec, _⟩ := executeReview_ok_guards s reviewId now tr sendOk r hok
  rw [executeReview_ok_state_nonzero s reviewId now tr sendOk r hok hP]
  have hshare : ∀ a ∈ s.reviewAgents reviewId,
      ((execFinalState s reviewId tr).agentShares reviewId a).tokenShare
        = (s.agentShares reviewId a).pledgedAmount * tr / (s.reviews reviewId).totalPledged := by
    intro a ha
    show ((upd s.agentShares reviewId
        (allocLoop (s.reviews reviewId).totalPledged tr (s.agentShares reviewId)
          (s.reviewAgents reviewId)) reviewId) a).tokenShare
      = (s.agentShares reviewId a).pledgedAmount * tr / (s.reviews reviewId).totalPledged
    rw [upd_same, allocLoop_tokenShare _ _ _ _ a ha]
    by_cases hz : (s.agentShares reviewId a).pledgedAmount = 0
    · rw [if_neg (by simp [hz]), hinv.token_zero reviewId a hexec, hz]
      simp
    · rw [if_pos ⟨hz, hT⟩]
  have hmapeq : (s.reviewAgents reviewId).map
        (fun a => ((execFinalState s reviewId tr).agentShares reviewId a).tokenShare)
      = ((s.reviewAgents reviewId).map
          (fun a => (s.agentShares reviewId a).pledgedAmount)).map
        (fun x => x * tr / (s.reviews reviewId).totalPledged) := by
    rw [List.map_map]
    exact List.map_congr_left (fun a ha => hshare a ha)
  have hspec := shareSum_spec (s.reviews reviewId).totalPledged tr hP
      ((s.reviewAgents reviewId).map (fun a => (s.agentShares reviewId a).pledgedAmount))
      (hinv.pledged_sum reviewId)
  refine ⟨?_, hshare, ?_, ?_, ?_, ?_⟩
  · show (upd s.reviews reviewId
        { s.reviews reviewId with executed := true, totalPurchased := tr }
        reviewId).totalPurchased = tr
    rw [upd_same]
  · intro a ha hz
    rw [hshare a ha, hz]
    simp
  · rw [hmapeq]
    exact hspec.1
  · rw [hmapeq]
    exact hspec.2.1.trans List.forall_mem_map
  · rw [hmapeq]
    have hdef := hspec.2.2
    rw [List.length_map] at hdef
    exact hdef

/-- C2 witness: executing review 0 of chain A (pledges 1 and 3, four tokens
received) keeps the share sum within the four purchased tokens and gives
agent 22 the share floor(3 * 4 / 4) = 3. -/
theorem tokenShare_allocation_witness :
    ((sA7.reviewAgents 0).map (fun a => (rA.1.agentShares 0 a).tokenShare)).sum ≤ 4
    ∧ (rA.1.agentShares 0 22).tokenShare = 3 := by
  have h := tokenShare_allocation sA7 0 10 4 sendAllOk rA reachable_sA7 rfl
    (by decide) (by decide)
  exact ⟨h.2.2.2.1, (h.2.1 22 (by decide)).trans (by decide)⟩

end AgentCoord
